import Mathlib

/-!
Verification of the messenger/funder components of the offst repository.

The development embeds, in shallow form, the parts of the code that the
claims refer to:

* `src/src/networker/messenger/handler/handle_neighbor.rs` (namespace
  `Networker`): freeze-link verification, request forwarding, request-origin
  lookup, channel reset and cancellation of pending local requests.
* `src/components/funder/src/handler/sender.rs` (namespace `Funder`):
  the operations batch, the outgoing-operation queue and the send path.
* `src/components/signature/src/signature_buff.rs` (namespace `SigBuff`):
  the response signature buffer.

Machine integers are embedded as `Nat` (the Rust code uses `BigUint`
arithmetic and checked conversions at the places where overflow matters, and
those checks are translated explicitly).  Fallible code and code that can
panic is embedded with `Option`.  Cryptographic primitives (hashing,
signing), randomness, and code of the repository that is not among the
source files (route helpers, the credit calculator, serialisation sizes) are
taken as parameters or modelled from the spec; each such definition carries a
comment saying so.
-/

namespace Offst

namespace Networker

/-- Embeds `Ratio` from the networker types: either the ratio one, or a
numerator over an implicit denominator of 2^64. -/
inductive Ratio
  | one
  | numerator (num : Nat)
  deriving DecidableEq

/-- Embeds `NetworkerFreezeLink`: the credit share and usable ratio a hop
advertises for freeze verification. -/
structure NetworkerFreezeLink where
  shared_credits : Nat
  usable_ratio : Ratio
  deriving DecidableEq

/-- Embeds the `two_pow_64` value of `handle_neighbor.rs`.  The source builds
it as `BigUint::new(vec![0x1, 0x0, 0x0])`; `BigUint::new` takes base-2^32
digits least significant first, so this value is 1 + 0·2^32 + 0·2^64 = 1,
not 2^64. -/
def two_pow_64 : Nat := 1

/-- One step of the ratio fold inside `verify_freezing_links`:
`Ratio::One` leaves the running credits unchanged and `Ratio::Numerator(num)`
maps them to `credits * num / two_pow_64` (integer division, as `BigUint`
division truncates). -/
def applyRatio (credits : Nat) : Ratio → Nat
  | .one => credits
  | .numerator num => credits * num / two_pow_64

/-- The allowed credits computed by the inner loop of
`verify_freezing_links` for index `k`: start from the k-th link's
`shared_credits` and fold the usable ratio of every link from `k` to the end
of the vector (the k-th link included, as in the source's range
`node_findex .. freeze_links.len()`). -/
def allowedCreditsAt (freeze_links : List NetworkerFreezeLink) (k : Nat) : Nat :=
  match freeze_links.drop k with
  | [] => 0
  | fl :: rest =>
    (fl :: rest).foldl (fun acc l => applyRatio acc l.usable_ratio) fl.shared_credits

/-- The outer loop of `verify_freezing_links` over the remaining indices:
for each index, obtain the credits to freeze from the credit calculator
(`None` propagates, as the source's `?` does) and fail if they exceed the
allowed credits. -/
def verifyFreezeFrom (credits : Nat → Option Nat)
    (freeze_links : List NetworkerFreezeLink) : List Nat → Option Unit
  | [] => some ()
  | k :: ks =>
    match credits k with
    | none => none
    | some c =>
      if allowedCreditsAt freeze_links k < c then none
      else verifyFreezeFrom credits freeze_links ks

/-- Embeds `verify_freezing_links`.  The credit calculator
(`CreditCalculator::credits_to_freeze`, whose module is not among the source
files) is a parameter `credits : Nat → Option Nat` giving the credits to
freeze at each node index of the route. -/
def verify_freezing_links (credits : Nat → Option Nat)
    (freeze_links : List NetworkerFreezeLink) : Option Unit :=
  verifyFreezeFrom credits freeze_links (List.range freeze_links.length)

/-- The bound asserted by claim C4, written from the claim's words: the
credits to freeze at hop `k` must be defined and must not exceed the k-th
link's `shared_credits` multiplied by that link's advertised usable ratio,
where `One` is the rational 1 and `Numerator n` is the rational `n / 2^64`
(the comparison `c ≤ sc · n / 2^64` over the rationals is written
`c · 2^64 ≤ sc · n` over `Nat`). -/
def claimShareBoundOk (credits : Nat → Option Nat)
    (freeze_links : List NetworkerFreezeLink) (k : Nat) : Bool :=
  match credits k, freeze_links.get? k with
  | some c, some fl =>
    match fl.usable_ratio with
    | .one => decide (c ≤ fl.shared_credits)
    | .numerator n => decide (c * 2 ^ 64 ≤ fl.shared_credits * n)
  | _, _ => false

/-! ### Messenger state

Public keys, channel tokens, request ids and nonces are embedded as `Nat`.
The per-neighbor and per-slot state is restricted to the fields the handler
functions of `handle_neighbor.rs` read or write. -/

/-- Embeds `RandNonceSignature`. -/
structure RandNonceSignature where
  rand_nonce : Nat
  signature : Nat
  deriving DecidableEq

/-- Embeds `FailureSendMessage`. -/
structure FailureSendMessage where
  request_id : Nat
  reporting_public_key : Nat
  rand_nonce_signatures : List RandNonceSignature
  deriving DecidableEq

/-- Embeds `RequestSendMessage` (the networker types module is not among the
source files; the fields are those `handle_neighbor.rs` uses, with
`request_content` a byte list). -/
structure RequestSendMessage where
  request_id : Nat
  route : List Nat
  request_content : List Nat
  max_response_len : Nat
  processing_fee_proposal : Nat
  freeze_links : List NetworkerFreezeLink
  deriving DecidableEq

/-- Embeds `PendingNeighborRequest`: the snapshot of a request kept in the
pending tables (only the fields the handler reads). -/
structure PendingNeighborRequest where
  request_id : Nat
  route : List Nat
  deriving DecidableEq

/-- Embeds `RequestSendMessage::create_pending_request` (its module is not
among the source files): snapshot the request into a pending record. -/
def RequestSendMessage.create_pending_request (rq : RequestSendMessage) :
    PendingNeighborRequest :=
  { request_id := rq.request_id, route := rq.route }

/-- Embeds `NeighborTcOp` restricted to the operations the handler queues. -/
inductive NeighborTcOp
  | failureSendMessage (f : FailureSendMessage)
  | responseSendMessage (r : Nat)
  deriving DecidableEq

/-- Embeds `TokenChannelSlot` restricted to what the handler reads:
the pending request tables of the directional token channel, the queue of
pending operations, the reset token this side advertises (the value of
`calc_channel_reset_token`, whose module is not among the source files, so it
is kept as data), and a flag recording that `SlotMutation::RemoteReset` was
applied (modelled from the spec: a remote reset reinitialises the channel). -/
structure TokenChannelSlot where
  pendingRemoteRequests : List Nat
  pendingLocalRequests : List (Nat × PendingNeighborRequest)
  pendingOperations : List NeighborTcOp
  resetToken : Nat
  wasReset : Bool
  deriving DecidableEq

/-- Embeds `NeighborState` restricted to what the handler reads: the token
channel slots keyed by channel index, the trust value (`get_trust`, whose
module is not among the source files, kept as data) and the queue of pending
requests fed by `NeighborMutation::PushBackPendingRequest`. -/
structure NeighborState where
  tcSlots : List (Nat × TokenChannelSlot)
  trust : Nat
  pendingRequests : List RequestSendMessage
  deriving DecidableEq

/-- Embeds `RequestReceived`: the request fields punted to the crypter. -/
structure RequestReceived where
  request_id : Nat
  route : List Nat
  request_content : List Nat
  max_response_len : Nat
  processing_fee_proposal : Nat
  deriving DecidableEq

/-- Embeds the messenger state visible to the handler: the local public key,
the neighbors keyed by public key, the total trust (`get_total_trust`, whose
module is not among the source files, kept as data), a counter standing for
the random nonce source (each fresh `RandValue` is the next counter value)
and the crypter tasks pushed so far. -/
structure MessengerState where
  localPublicKey : Nat
  neighbors : List (Nat × NeighborState)
  totalTrust : Nat
  nonceCtr : Nat
  crypterTasks : List RequestReceived
  deriving DecidableEq

/-- Embeds `SlotMutation` restricted to the mutations the handler emits. -/
inductive SlotMutation
  | pushBackPendingOperation (op : NeighborTcOp)
  | remoteReset
  deriving DecidableEq

/-- Embeds `NeighborMutation` restricted to the mutations the handler emits. -/
inductive NeighborMutation
  | slotMutation (ci : Nat) (m : SlotMutation)
  | pushBackPendingRequest (rq : RequestSendMessage)
  deriving DecidableEq

/-- Embeds `MessengerMutation` restricted to the mutations the handler emits. -/
inductive MessengerMutation
  | neighborMutation (pk : Nat) (m : NeighborMutation)
  deriving DecidableEq

/-- Look up the value at a key in an association list (first match, as a map
lookup). -/
def lookupAssoc {α : Type} (k : Nat) : List (Nat × α) → Option α
  | [] => none
  | p :: rest => if p.1 = k then some p.2 else lookupAssoc k rest

/-- Update the value at a key in an association list (first match only, as a
map update). -/
def updateAssoc {α : Type} (k : Nat) (f : α → α) : List (Nat × α) → List (Nat × α)
  | [] => []
  | p :: rest => if p.1 = k then (p.1, f p.2) :: rest else p :: updateAssoc k f rest

/-- Apply a `SlotMutation` to a slot: push a pending operation at the back,
or record a remote reset. -/
def TokenChannelSlot.applyMutation (slot : TokenChannelSlot) :
    SlotMutation → TokenChannelSlot
  | .pushBackPendingOperation op =>
    { slot with pendingOperations := slot.pendingOperations ++ [op] }
  | .remoteReset => { slot with wasReset := true }

/-- Apply a `NeighborMutation` to a neighbor. -/
def NeighborState.applyMutation (n : NeighborState) :
    NeighborMutation → NeighborState
  | .slotMutation ci m =>
    { n with tcSlots := updateAssoc ci (fun s => s.applyMutation m) n.tcSlots }
  | .pushBackPendingRequest rq =>
    { n with pendingRequests := n.pendingRequests ++ [rq] }

/-- Apply a `MessengerMutation` to the messenger state (the handler both
journals the mutation and applies it with `state.mutate`; the embedding
observes the applied state). -/
def MessengerState.applyMutation (s : MessengerState) :
    MessengerMutation → MessengerState
  | .neighborMutation pk m =>
    { s with neighbors := updateAssoc pk (fun n => n.applyMutation m) s.neighbors }

/-- Embeds the neighbor lookup `self.state.get_neighbors().get(pk)`. -/
def MessengerState.getNeighbor (s : MessengerState) (pk : Nat) :
    Option NeighborState :=
  lookupAssoc pk s.neighbors

/-- Embeds `get_token_channel_slot` without the panics: the slot of a
neighbor at a channel index, when both exist. -/
def MessengerState.getSlot (s : MessengerState) (pk ci : Nat) :
    Option TokenChannelSlot :=
  (s.getNeighbor pk).bind (fun n => lookupAssoc ci n.tcSlots)

/-- The pending operations queued at a neighbor's slot (empty when the slot
does not exist). -/
def pendingOpsOf (s : MessengerState) (pk ci : Nat) : List NeighborTcOp :=
  ((s.getSlot pk ci).map (fun sl => sl.pendingOperations)).getD []

/-- The pending requests queued at a neighbor (empty when the neighbor does
not exist). -/
def pendingRequestsOf (s : MessengerState) (pk : Nat) : List RequestSendMessage :=
  ((s.getNeighbor pk).map (fun n => n.pendingRequests)).getD []

/-- Whether the slot at a neighbor and channel index has been remote-reset
(false when the slot does not exist). -/
def slotWasReset (s : MessengerState) (pk ci : Nat) : Bool :=
  ((s.getSlot pk ci).map (fun sl => sl.wasReset)).getD false

/-- Embeds `find_token_channel_by_request_id`, exactly as the source reads:
return the first channel index whose `pending_remote_requests` table does
NOT contain the request id (`.get(request_id).is_none()`), `none` when every
slot contains it. -/
def find_token_channel_by_request_id (neighbor : NeighborState)
    (request_id : Nat) : Option Nat :=
  neighbor.tcSlots.findSome? (fun p =>
    if request_id ∈ p.2.pendingRemoteRequests then none else some p.1)

/-- Embeds `find_request_origin`: scan the neighbors and return the first
public key and channel index produced by `find_token_channel_by_request_id`. -/
def MessengerState.find_request_origin (s : MessengerState) (request_id : Nat) :
    Option (Nat × Nat) :=
  s.neighbors.findSome? (fun p =>
    (find_token_channel_by_request_id p.2 request_id).map (fun ci => (p.1, ci)))

/-! ### Failure messages, cancellation and channel reset -/

/-- The ASCII bytes of "FUND_CANCEL". -/
def FUNDS_CANCEL_TAG : List Nat := [70, 85, 78, 68, 95, 67, 65, 78, 67, 69, 76]

/-- Modelled from the spec: the failure signature buffer is the hash prefix
for "FUND_CANCEL", the request id, the reporting public key and each
(rand_nonce, signature) pair of the preceding reporters (the networker's
`signature_buff.rs` is not among the source files; the pending request's
fields are appended as its contribution to the buffer). -/
def create_failure_signature_buffer (fsm : FailureSendMessage)
    (plr : PendingNeighborRequest) : List Nat :=
  FUNDS_CANCEL_TAG ++ [fsm.request_id, fsm.reporting_public_key] ++
    fsm.rand_nonce_signatures.foldr
      (fun p acc => p.rand_nonce :: p.signature :: acc) [] ++
    [plr.request_id] ++ plr.route

/-- Embeds `create_failure_message`: build the failure for a pending local
request, have it signed (the security-module client is the parameter `sign`)
over the failure signature buffer extended with a fresh rand nonce, and
return it with the single resulting `RandNonceSignature`.  The fresh nonce is
the next value of the state's nonce counter. -/
def MessengerState.create_failure_message (s : MessengerState)
    (sign : List Nat → Nat) (pending_local_request : PendingNeighborRequest) :
    MessengerState × FailureSendMessage :=
  let local_public_key := s.localPublicKey
  let failure_send_msg : FailureSendMessage :=
    { request_id := pending_local_request.request_id
      reporting_public_key := local_public_key
      rand_nonce_signatures := [] }
  let buf := create_failure_signature_buffer failure_send_msg pending_local_request
  let rand_nonce := s.nonceCtr
  let signature := sign (buf ++ [rand_nonce])
  ({ s with nonceCtr := s.nonceCtr + 1 },
   { request_id := pending_local_request.request_id
     reporting_public_key := local_public_key
     rand_nonce_signatures := [{ rand_nonce := rand_nonce, signature := signature }] })

/-- The loop body of `cancel_local_pending_requests` over the cloned list of
pending local requests: skip a request whose origin is not found, otherwise
create a signed failure message and push it as a pending operation on the
origin's channel. -/
def cancelLoop (sign : List Nat → Nat) :
    MessengerState → List (Nat × PendingNeighborRequest) → MessengerState
  | s, [] => s
  | s, (local_request_id, plr) :: rest =>
    match s.find_request_origin local_request_id with
    | none => cancelLoop sign s rest
    | some (origin_public_key, origin_channel_index) =>
      let sf := s.create_failure_message sign plr
      cancelLoop sign
        (sf.1.applyMutation
          (.neighborMutation origin_public_key
            (.slotMutation origin_channel_index
              (.pushBackPendingOperation (.failureSendMessage sf.2)))))
        rest

/-- Embeds `cancel_local_pending_requests`: clone the slot's pending local
requests and run the cancellation loop (`none` when the neighbor or slot is
missing, where the source would panic). -/
def MessengerState.cancel_local_pending_requests (s : MessengerState)
    (sign : List Nat → Nat) (pk ci : Nat) : Option MessengerState :=
  (s.getSlot pk ci).map (fun slot => cancelLoop sign s slot.pendingLocalRequests)

/-- Embeds `check_reset_channel`: when the incoming token equals the reset
token this side advertised, cancel the pending local requests and apply the
`RemoteReset` slot mutation; otherwise leave the state unchanged. -/
def MessengerState.check_reset_channel (s : MessengerState)
    (sign : List Nat → Nat) (pk ci : Nat) (new_token : Nat) :
    Option MessengerState := do
  let slot ← s.getSlot pk ci
  if new_token = slot.resetToken then
    let s' ← s.cancel_local_pending_requests sign pk ci
    return s'.applyMutation (.neighborMutation pk (.slotMutation ci .remoteReset))
  else
    return s

/-- Embeds `NeighborMoveToken` restricted to the fields `handle_move_token`
and `check_reset_channel` read (the networker types module is not among the
source files): `handle_move_token` passes `neighbor_move_token.new_token` to
`check_reset_channel`. -/
structure NeighborMoveToken where
  token_channel_index : Nat
  old_token : Nat
  new_token : Nat
  deriving DecidableEq

/-! ### Request handling -/

/-- Embeds `PkPairPosition`. -/
inductive PkPairPosition
  | dest
  | notDest (i : Nat)
  deriving DecidableEq

/-- Modelled from the spec: `find_pk_pair` locates the first adjacent pair
(remote, local) on the route and reports `Dest` when the local key is the
route's last element, otherwise `NotDest i` with `i` the remote key's index
(the route type is not among the source files). -/
def find_pk_pair (route : List Nat) (remote localKey : Nat) :
    Option PkPairPosition :=
  ((route.zip route.tail).findIdx? (fun p => p.1 == remote && p.2 == localKey)).map
    (fun i => if i + 2 = route.length then .dest else .notDest i)

/-- Embeds `punt_request_to_crypter`: push a `RequestReceived` crypter task
carrying the request's fields. -/
def MessengerState.punt_request_to_crypter (s : MessengerState)
    (rq : RequestSendMessage) : MessengerState :=
  { s with
    crypterTasks := s.crypterTasks ++
      [{ request_id := rq.request_id
         route := rq.route
         request_content := rq.request_content
         max_response_len := rq.max_response_len
         processing_fee_proposal := rq.processing_fee_proposal }] }

/-- Embeds `reply_with_failure`: snapshot the request, create a signed
failure message and push it as a pending operation on the remote (upstream)
neighbor's channel. -/
def MessengerState.reply_with_failure (s : MessengerState)
    (sign : List Nat → Nat) (remote_public_key ci : Nat)
    (rq : RequestSendMessage) : MessengerState :=
  let pending_request := rq.create_pending_request
  let sf := s.create_failure_message sign pending_request
  sf.1.applyMutation
    (.neighborMutation remote_public_key
      (.slotMutation ci (.pushBackPendingOperation (.failureSendMessage sf.2))))

/-- The largest `u64` value, for the source's `to_u64` conversions. -/
def u64Max : Nat := 2 ^ 64 - 1

/-- Embeds `forward_request` exactly as the source reads, panics becoming
`none`: find our index on the route, take the previous index, and look up
the previous and next public keys — the source obtains BOTH from
`pk_by_index(prev_index)`.  Compute the usable ratio from the trust values
(`BigUint` subtraction and division panic on underflow and on a zero
divisor), clamp `shared_credits` to `u64`, append our freeze link and push
the request onto the (so computed) next neighbor's pending requests. -/
def MessengerState.forward_request (s : MessengerState)
    (rq : RequestSendMessage) : Option MessengerState := do
  let index ← rq.route.findIdx? (fun pk => pk == s.localPublicKey)
  let prev_index ← if index = 0 then none else some (index - 1)
  let _next_index := index + 1
  let prev_pk ← rq.route.get? prev_index
  let next_pk ← rq.route.get? prev_index
  let prev_neighbor ← s.getNeighbor prev_pk
  let next_neighbor ← s.getNeighbor next_pk
  let total_trust := s.totalTrust
  let prev_trust := prev_neighbor.trust
  let forward_trust := next_neighbor.trust
  if total_trust < prev_trust then none
  else if total_trust - prev_trust = 0 then none
  else
    let numerator := two_pow_64 * forward_trust / (total_trust - prev_trust)
    let usable_ratio :=
      if numerator ≤ u64Max then Ratio.numerator numerator else Ratio.one
    let shared_credits := if prev_trust ≤ u64Max then prev_trust else u64Max
    let rq' :=
      { rq with
        freeze_links := rq.freeze_links ++
          [{ shared_credits := shared_credits, usable_ratio := usable_ratio }] }
    return s.applyMutation (.neighborMutation next_pk (.pushBackPendingRequest rq'))

/-- Embeds `handle_request_send_msg`: find our pair position on the route;
at the destination, punt to the crypter.  Otherwise compute the next hop's
public key; when it is not a known neighbor, reply upstream with a failure —
the source then falls through.  Then run freeze verification: on success
forward the request, on failure reply upstream with a failure. -/
def MessengerState.handle_request_send_msg (s : MessengerState)
    (sign : List Nat → Nat) (credits : Nat → Option Nat)
    (remote_public_key ci : Nat) (rq : RequestSendMessage) :
    Option MessengerState := do
  let pk_pair ← find_pk_pair rq.route remote_public_key s.localPublicKey
  match pk_pair with
  | .dest => return s.punt_request_to_crypter rq
  | .notDest i =>
    let index := i + 1
    let next_index := index + 1
    let next_public_key ← rq.route.get? next_index
    let s1 :=
      if (s.getNeighbor next_public_key).isNone then
        s.reply_with_failure sign remote_public_key ci rq
      else s
    match verify_freezing_links credits rq.freeze_links with
    | some _ => s1.forward_request rq
    | none => return s1.reply_with_failure sign remote_public_key ci rq

/-! ### Lemmas: association lists, mutation stability, cancellation -/

theorem lookupAssoc_updateAssoc_self {α : Type} (k : Nat) (f : α → α)
    (l : List (Nat × α)) :
    lookupAssoc k (updateAssoc k f l) = (lookupAssoc k l).map f := by
  induction l with
  | nil => rfl
  | cons p rest ih =>
    by_cases hp : p.1 = k <;> simp [updateAssoc, lookupAssoc, hp, ih]

theorem lookupAssoc_updateAssoc_ne {α : Type} {k k' : Nat} (hk : k ≠ k')
    (f : α → α) (l : List (Nat × α)) :
    lookupAssoc k (updateAssoc k' f l) = lookupAssoc k l := by
  induction l with
  | nil => rfl
  | cons p rest ih =>
    have hk' : k' ≠ k := fun hx => hk hx.symm
    by_cases hp : p.1 = k'
    · simp [updateAssoc, lookupAssoc, hp, hk']
    · by_cases hq : p.1 = k <;> simp [updateAssoc, lookupAssoc, hp, hq, hk, ih]

@[simp]
theorem nonceCtr_applyMutation (s : MessengerState) (m : MessengerMutation) :
    (s.applyMutation m).nonceCtr = s.nonceCtr := by
  cases m with
  | neighborMutation pk nm => rfl

@[simp]
theorem localPublicKey_applyMutation (s : MessengerState) (m : MessengerMutation) :
    (s.applyMutation m).localPublicKey = s.localPublicKey := by
  cases m with
  | neighborMutation pk nm => rfl

theorem getSlot_applyMutation_slot (s : MessengerState) (opk oci : Nat)
    (m : SlotMutation) (pk ci : Nat) :
    (s.applyMutation (.neighborMutation opk (.slotMutation oci m))).getSlot pk ci =
      if pk = opk ∧ ci = oci then
        (s.getSlot pk ci).map (fun sl => sl.applyMutation m)
      else s.getSlot pk ci := by
  unfold MessengerState.applyMutation MessengerState.getSlot MessengerState.getNeighbor
  by_cases hpk : pk = opk
  · subst hpk
    rw [lookupAssoc_updateAssoc_self]
    cases hn : lookupAssoc pk s.neighbors with
    | none => by_cases hci : ci = oci <;> simp [hci]
    | some n =>
      by_cases hci : ci = oci
      · subst hci
        simp [NeighborState.applyMutation, lookupAssoc_updateAssoc_self]
      · simp [NeighborState.applyMutation, lookupAssoc_updateAssoc_ne hci, hci]
  · rw [lookupAssoc_updateAssoc_ne hpk]
    simp [hpk]

/-- The projection of a neighbor that `find_token_channel_by_request_id`
reads: the channel indices with their pending remote request tables. -/
def neighborView (n : NeighborState) : List (Nat × List Nat) :=
  n.tcSlots.map (fun p => (p.1, p.2.pendingRemoteRequests))

/-- The projection of the state that `find_request_origin` reads. -/
def remoteView (s : MessengerState) : List (Nat × List (Nat × List Nat)) :=
  s.neighbors.map (fun p => (p.1, neighborView p.2))

/-- `find_token_channel_by_request_id` on the view. -/
def viewFindTc (v : List (Nat × List Nat)) (request_id : Nat) : Option Nat :=
  v.findSome? (fun q => if request_id ∈ q.2 then none else some q.1)

/-- `find_request_origin` on the view. -/
def viewFindOrigin (v : List (Nat × List (Nat × List Nat))) (request_id : Nat) :
    Option (Nat × Nat) :=
  v.findSome? (fun p => (viewFindTc p.2 request_id).map (fun ci => (p.1, ci)))

theorem findSome?_map_eq {α β γ : Type} (f : α → β) (g : β → Option γ)
    (l : List α) :
    (l.map f).findSome? g = l.findSome? (fun a => g (f a)) := by
  induction l with
  | nil => rfl
  | cons a rest ih =>
    simp only [List.map_cons, List.findSome?]
    cases g (f a) <;> simp [ih]

theorem find_tc_eq_view (n : NeighborState) (rid : Nat) :
    find_token_channel_by_request_id n rid = viewFindTc (neighborView n) rid := by
  unfold find_token_channel_by_request_id viewFindTc neighborView
  rw [findSome?_map_eq]

theorem find_origin_eq_view (s : MessengerState) (rid : Nat) :
    s.find_request_origin rid = viewFindOrigin (remoteView s) rid := by
  unfold MessengerState.find_request_origin viewFindOrigin remoteView
  rw [findSome?_map_eq]
  have : (fun p : Nat × NeighborState =>
        (find_token_channel_by_request_id p.2 rid).map (fun ci => (p.1, ci))) =
      (fun p : Nat × NeighborState =>
        (viewFindTc (neighborView p.2) rid).map (fun ci => (p.1, ci))) := by
    funext p
    rw [find_tc_eq_view]
  rw [this]

theorem map_updateAssoc_view {α β : Type} (k : Nat) (f : α → α) (view : α → β)
    (hf : ∀ a, view (f a) = view a) (l : List (Nat × α)) :
    (updateAssoc k f l).map (fun p => (p.1, view p.2)) =
      l.map (fun p => (p.1, view p.2)) := by
  induction l with
  | nil => rfl
  | cons p rest ih =>
    by_cases hp : p.1 = k <;> simp [updateAssoc, hp, hf, ih]

theorem neighborView_push (n : NeighborState) (oci : Nat) (op : NeighborTcOp) :
    neighborView (n.applyMutation (.slotMutation oci (.pushBackPendingOperation op))) =
      neighborView n := by
  simp only [NeighborState.applyMutation, neighborView]
  exact map_updateAssoc_view oci
    (fun sl => sl.applyMutation (.pushBackPendingOperation op))
    (fun sl => sl.pendingRemoteRequests) (fun sl => rfl) n.tcSlots

theorem remoteView_push (s : MessengerState) (opk oci : Nat) (op : NeighborTcOp) :
    remoteView (s.applyMutation
        (.neighborMutation opk (.slotMutation oci (.pushBackPendingOperation op)))) =
      remoteView s := by
  simp only [MessengerState.applyMutation, remoteView]
  exact map_updateAssoc_view opk _ _
    (fun n => neighborView_push n oci op) s.neighbors

/-- The failure message `create_failure_message` produces, as a function of
the signer, the local public key, the nonce drawn and the pending request. -/
def mkFailureMsg (sign : List Nat → Nat) (localPk nonce : Nat)
    (plr : PendingNeighborRequest) : FailureSendMessage :=
  { request_id := plr.request_id
    reporting_public_key := localPk
    rand_nonce_signatures :=
      [{ rand_nonce := nonce
         signature := sign (create_failure_signature_buffer
           { request_id := plr.request_id
             reporting_public_key := localPk
             rand_nonce_signatures := [] } plr ++ [nonce]) }] }

theorem create_failure_message_eq (s : MessengerState) (sign : List Nat → Nat)
    (plr : PendingNeighborRequest) :
    s.create_failure_message sign plr =
      ({ s with nonceCtr := s.nonceCtr + 1 },
       mkFailureMsg sign s.localPublicKey s.nonceCtr plr) := rfl

/-- The failures the cancellation loop will queue, planned against the
initial state: one per pending local request whose origin
`find_request_origin` finds, tagged with the origin's public key and channel
index, the reporting key being the local public key and the nonce the next
counter value; requests with no origin contribute nothing. -/
def plannedFailures (sign : List Nat → Nat) (s0 : MessengerState) :
    Nat → List (Nat × PendingNeighborRequest) → List (Nat × Nat × FailureSendMessage)
  | _, [] => []
  | nonce, (rid, plr) :: rest =>
    match s0.find_request_origin rid with
    | none => plannedFailures sign s0 nonce rest
    | some (opk, oci) =>
      (opk, oci, mkFailureMsg sign s0.localPublicKey nonce plr) ::
        plannedFailures sign s0 (nonce + 1) rest

/-- Apply a planned list of failures: for each, draw the nonce (bump the
counter) and push the failure operation on the origin's channel. -/
def applyFailures (s : MessengerState) :
    List (Nat × Nat × FailureSendMessage) → MessengerState
  | [] => s
  | (opk, oci, fsm) :: rest =>
    applyFailures
      (({ s with nonceCtr := s.nonceCtr + 1 }).applyMutation
        (.neighborMutation opk
          (.slotMutation oci
            (.pushBackPendingOperation (.failureSendMessage fsm)))))
      rest

theorem cancelLoop_eq_applyFailures (sign : List Nat → Nat) (s0 : MessengerState) :
    ∀ (l : List (Nat × PendingNeighborRequest)) (s : MessengerState),
      remoteView s = remoteView s0 → s.localPublicKey = s0.localPublicKey →
      cancelLoop sign s l = applyFailures s (plannedFailures sign s0 s.nonceCtr l) := by
  intro l
  induction l with
  | nil =>
    intro s hv hp
    rfl
  | cons q rest ih =>
    intro s hv hp
    obtain ⟨rid, plr⟩ := q
    have hfo : s.find_request_origin rid = s0.find_request_origin rid := by
      rw [find_origin_eq_view, find_origin_eq_view, hv]
    cases ho : s0.find_request_origin rid with
    | none =>
      have hs : s.find_request_origin rid = none := by rw [hfo, ho]
      simp only [cancelLoop, hs, plannedFailures, ho]
      exact ih s hv hp
    | some target =>
      obtain ⟨opk, oci⟩ := target
      have hs : s.find_request_origin rid = some (opk, oci) := by rw [hfo, ho]
      simp only [cancelLoop, hs, create_failure_message_eq, plannedFailures, ho,
        applyFailures]
      rw [← hp]
      refine (ih _ ?_ ?_).trans ?_
      · rw [remoteView_push]
        exact hv
      · rw [localPublicKey_applyMutation]
        exact hp
      · simp

theorem getSlot_isSome_applyMutation_slot (s : MessengerState) (opk oci : Nat)
    (m : SlotMutation) (pk ci : Nat) :
    ((s.applyMutation (.neighborMutation opk (.slotMutation oci m))).getSlot pk ci).isSome =
      (s.getSlot pk ci).isSome := by
  rw [getSlot_applyMutation_slot]
  by_cases h : pk = opk ∧ ci = oci
  · simp [h]
  · simp [h]

theorem getSlot_isSome_cancelLoop (sign : List Nat → Nat) (pk ci : Nat) :
    ∀ (l : List (Nat × PendingNeighborRequest)) (s : MessengerState),
      ((cancelLoop sign s l).getSlot pk ci).isSome = (s.getSlot pk ci).isSome := by
  intro l
  induction l with
  | nil =>
    intro s
    rfl
  | cons q rest ih =>
    intro s
    obtain ⟨rid, plr⟩ := q
    cases hs : s.find_request_origin rid with
    | none =>
      simp only [cancelLoop, hs]
      exact ih s
    | some target =>
      obtain ⟨opk, oci⟩ := target
      simp only [cancelLoop, hs, create_failure_message_eq]
      rw [ih _, getSlot_isSome_applyMutation_slot]
      rfl

theorem slotWasReset_after_remoteReset (s : MessengerState) (pk ci : Nat)
    (h : (s.getSlot pk ci).isSome = true) :
    slotWasReset
        (s.applyMutation (.neighborMutation pk (.slotMutation ci .remoteReset)))
        pk ci = true := by
  unfold slotWasReset
  rw [getSlot_applyMutation_slot]
  cases hs : s.getSlot pk ci with
  | none => rw [hs] at h; simp at h
  | some sl => simp [hs, TokenChannelSlot.applyMutation]

/-! ### Concrete inputs for the settled claims -/

/-- A concrete signer: every buffer is signed with 0. -/
def zeroSign : List Nat → Nat := fun _ => 0

/-- The credit calculator for the C1 failing input (unused there: the
incoming request carries no freeze links, so verification passes). -/
def c1Credits : Nat → Option Nat := fun _ => some 0

/-- The slot of the upstream neighbor in the C1 failing input. -/
def c1Slot : TokenChannelSlot :=
  { pendingRemoteRequests := []
    pendingLocalRequests := []
    pendingOperations := []
    resetToken := 99
    wasReset := false }

/-- The upstream neighbor (public key 10) in the C1 failing input. -/
def c1Neighbor : NeighborState :=
  { tcSlots := [(0, c1Slot)], trust := 1, pendingRequests := [] }

/-- The C1 failing input state: the local node is 20, its only neighbor is
10; the route's next hop 30 is not a neighbor. -/
def c1State : MessengerState :=
  { localPublicKey := 20
    neighbors := [(10, c1Neighbor)]
    totalTrust := 2
    nonceCtr := 0
    crypterTasks := [] }

/-- The C1 failing request: route `[10, 20, 30]`, no freeze links. -/
def c1Rq : RequestSendMessage :=
  { request_id := 5
    route := [10, 20, 30]
    request_content := []
    max_response_len := 0
    processing_fee_proposal := 0
    freeze_links := [] }

/-- The result of handling the C1 failing request. -/
def c1Out : Option MessengerState :=
  c1State.handle_request_send_msg zeroSign c1Credits 10 0 c1Rq

/-- The two slots of the C2 failing input: the slot of neighbor 1 contains
request 42 in its pending remote requests, the slot of neighbor 2 does not. -/
def c2SlotA : TokenChannelSlot :=
  { pendingRemoteRequests := [42]
    pendingLocalRequests := []
    pendingOperations := []
    resetToken := 0
    wasReset := false }

/-- See `c2SlotA`. -/
def c2SlotB : TokenChannelSlot :=
  { pendingRemoteRequests := []
    pendingLocalRequests := []
    pendingOperations := []
    resetToken := 0
    wasReset := false }

/-- The C2 failing input state. -/
def c2State : MessengerState :=
  { localPublicKey := 0
    neighbors :=
      [(1, { tcSlots := [(0, c2SlotA)], trust := 0, pendingRequests := [] }),
       (2, { tcSlots := [(0, c2SlotB)], trust := 0, pendingRequests := [] })]
    totalTrust := 0
    nonceCtr := 0
    crypterTasks := [] }

/-- The slot of the C3 counterexample: the advertised reset token is 7. -/
def c3Slot : TokenChannelSlot :=
  { pendingRemoteRequests := []
    pendingLocalRequests := []
    pendingOperations := []
    resetToken := 7
    wasReset := false }

/-- The C3 counterexample state. -/
def c3State : MessengerState :=
  { localPublicKey := 0
    neighbors := [(1, { tcSlots := [(0, c3Slot)], trust := 0, pendingRequests := [] })]
    totalTrust := 0
    nonceCtr := 0
    crypterTasks := [] }

/-- The C3 counterexample move token: its `old_token` equals the advertised
reset token 7, its `new_token` does not. -/
def c3Mt : NeighborMoveToken :=
  { token_channel_index := 0, old_token := 7, new_token := 3 }

/-- A pending local request for the C10 witness. -/
def w10Plr : PendingNeighborRequest := { request_id := 77, route := [1, 0] }

/-- The slot being reset in the C10 witness: it holds one pending local
request. -/
def w10Slot : TokenChannelSlot :=
  { pendingRemoteRequests := []
    pendingLocalRequests := [(77, w10Plr)]
    pendingOperations := []
    resetToken := 9
    wasReset := false }

/-- The C10 witness state. -/
def w10State : MessengerState :=
  { localPublicKey := 0
    neighbors := [(1, { tcSlots := [(0, w10Slot)], trust := 0, pendingRequests := [] })]
    totalTrust := 0
    nonceCtr := 0
    crypterTasks := [] }

/-- The credit-calculator values for the C4 failing input. -/
def c4Credits : Nat → Option Nat := fun _ => some 2

/-- The freeze-link vector for the C4 failing input: a single link with
`shared_credits = 1` and `usable_ratio = Numerator 2`. -/
def c4Links : List NetworkerFreezeLink := [⟨1, .numerator 2⟩]

end Networker

namespace Funder

/-!
Embedding of `src/components/funder/src/handler/sender.rs`.  Public keys are
`Nat`; the payloads of requests, responses and failures are opaque `Nat`
identifiers (their types live in modules that are not among the source
files).  The serialised size of an operation (`approx_bytes_count`, also not
among the source files) is a parameter `opLen`.  A signed move token is
represented by its list of operations: signatures, hashes and the
mutual-credit mutations of the token-channel module (not among the source
files) do not affect the claims settled here and are abstracted away where
they are noted.
-/

/-- Embeds `RequestsStatus`. -/
inductive RequestsStatus
  | Open
  | Closed
  deriving DecidableEq

/-- Embeds `ResponseOp` of `friend.rs`: a pending response or failure. -/
inductive ResponseOp
  | response (r : Nat)
  | failure (f : Nat)
  deriving DecidableEq

/-- Embeds `FriendTcOp` restricted to the constructors `sender.rs` builds. -/
inductive FriendTcOp
  | enableRequests
  | disableRequests
  | setRemoteMaxDebt (debt : Nat)
  | requestSendFunds (rq : Nat)
  | responseSendFunds (rs : Nat)
  | failureSendFunds (fl : Nat)
  deriving DecidableEq

/-- Embeds `FriendMoveTokenRequest`: the (abstracted) move token together
with the `token_wanted` flag. -/
structure FriendMoveTokenRequest where
  operations : List FriendTcOp
  token_wanted : Bool
  deriving DecidableEq

/-- Embeds `TcOutgoing`: the last sent move token (kept as its operations)
and whether we have asked for the token back. -/
structure TcOutgoing where
  moveTokenOut : List FriendTcOp
  tokenWanted : Bool
  deriving DecidableEq

/-- Embeds `create_outgoing_move_token_request` (its module is not among the
source files): rebuild the move-token request from the stored outgoing
state. -/
def TcOutgoing.create_outgoing_move_token_request (tc : TcOutgoing) :
    FriendMoveTokenRequest :=
  { operations := tc.moveTokenOut, token_wanted := tc.tokenWanted }

/-- Embeds `TcDirection`. -/
inductive TcDirection
  | incoming
  | outgoing (tc : TcOutgoing)
  deriving DecidableEq

/-- Embeds the token channel restricted to the fields `sender.rs` reads:
the direction, the remote max debt of the mutual credit, and the local
requests status of the mutual credit. -/
structure TokenChannel where
  direction : TcDirection
  remoteMaxDebt : Nat
  localRequestsStatus : RequestsStatus
  deriving DecidableEq

/-- Embeds `ChannelStatus`. -/
inductive ChannelStatus
  | consistent (tc : TokenChannel)
  | inconsistent
  deriving DecidableEq

/-- Embeds the friend record restricted to the fields `sender.rs` reads. -/
structure Friend where
  channelStatus : ChannelStatus
  wantedRemoteMaxDebt : Nat
  wantedLocalRequestsStatus : RequestsStatus
  pendingResponses : List ResponseOp
  pendingRequests : List Nat
  pendingUserRequests : List Nat
  deriving DecidableEq

/-- Embeds `FriendMessage` restricted to what `sender.rs` emits. -/
inductive FriendMessage
  | moveTokenRequest (m : FriendMoveTokenRequest)
  deriving DecidableEq

/-- Embeds `FunderOutgoingComm` restricted to what `sender.rs` emits. -/
inductive FunderOutgoingComm
  | friendMessage (pk : Nat) (m : FriendMessage)
  deriving DecidableEq

/-- Embeds `SendMode`. -/
inductive SendMode
  | EmptyAllowed
  | EmptyNotAllowed
  deriving DecidableEq

/-- Modelled from the spec: `MAX_MOVE_TOKEN_LENGTH` is a fixed constant,
suggested 0x10000 (its defining module is not among the source files). -/
def MAX_MOVE_TOKEN_LENGTH : Nat := 0x10000

/-- Embeds `OperationsBatch`. -/
structure OperationsBatch where
  bytes_left : Nat
  operations : List FriendTcOp
  deriving DecidableEq

/-- Embeds `OperationsBatch::new`. -/
def OperationsBatch.new (max_length : Nat) : OperationsBatch :=
  { bytes_left := max_length, operations := [] }

/-- Embeds `OperationsBatch::add`: `checked_sub` of the operation's
approximate byte count (`opLen`, a parameter) from the remaining budget;
on underflow return `none` and leave the batch unchanged, otherwise push the
operation. -/
def OperationsBatch.add (opLen : FriendTcOp → Nat) (b : OperationsBatch)
    (operation : FriendTcOp) : OperationsBatch × Option Unit :=
  let op_len := opLen operation
  if op_len ≤ b.bytes_left then
    ({ bytes_left := b.bytes_left - op_len
       operations := b.operations ++ [operation] }, some ())
  else (b, none)

/-- Embeds `OperationsBatch::done`. -/
def OperationsBatch.done (b : OperationsBatch) : List FriendTcOp :=
  b.operations

/-- The consistent token channel of a friend; `none` where the source's
`unreachable!()` would panic on an inconsistent channel. -/
def consistentChannel : ChannelStatus → Option TokenChannel
  | .consistent tc => some tc
  | .inconsistent => none

/-- Embeds `ResponseOp → FriendTcOp` as matched inside
`queue_outgoing_operations`. -/
def opOfResponse : ResponseOp → FriendTcOp
  | .response r => .responseSendFunds r
  | .failure f => .failureSendFunds f

/-- One queue-draining loop of `queue_outgoing_operations`: pop elements
while `add` admits them (each admitted element is popped from its queue by a
mutation at that moment); the first refusal stops with the un-admitted
remainder, the partially filled batch, and `false`. -/
def drainList {α : Type} (opLen : FriendTcOp → Nat) (toOp : α → FriendTcOp) :
    List α → OperationsBatch → List α × OperationsBatch × Bool
  | [], b => ([], b, true)
  | x :: rest, b =>
    match OperationsBatch.add opLen b (toOp x) with
    | (b', some _) => drainList opLen toOp rest b'
    | (_, none) => (x :: rest, b, false)

/-- The queue-draining tail of `queue_outgoing_operations` (stages three to
five): drain `pending_responses`, then `pending_requests`, then
`pending_user_requests`, each admitted element popped by its mutation, a
refusal stopping the function. -/
def queueStage3to5 (opLen : FriendTcOp → Nat) (friend : Friend)
    (b2 : OperationsBatch) : Friend × OperationsBatch × Bool :=
  let d3 := drainList opLen opOfResponse friend.pendingResponses b2
  let friend1 := { friend with pendingResponses := d3.1 }
  if !d3.2.2 then (friend1, d3.2.1, false)
  else
    let d4 := drainList opLen FriendTcOp.requestSendFunds friend1.pendingRequests d3.2.1
    let friend2 := { friend1 with pendingRequests := d4.1 }
    if !d4.2.2 then (friend2, d4.2.1, false)
    else
      let d5 := drainList opLen FriendTcOp.requestSendFunds friend2.pendingUserRequests d4.2.1
      ({ friend2 with pendingUserRequests := d5.1 }, d5.2.1, d5.2.2)

/-- Embeds `queue_outgoing_operations`: try `SetRemoteMaxDebt` when the
wanted value differs from the channel's, then `EnableRequests` or
`DisableRequests` when the wanted local requests status differs, then drain
`pending_responses`, `pending_requests` and `pending_user_requests` in that
order.  A refusal (`?` on `add`) stops the whole function; the queues keep
the mutations applied so far.  Returns `none` where the source would panic
on an inconsistent channel; the `Bool` is `true` when no refusal happened
(the source's `Some(())`). -/
def queue_outgoing_operations (opLen : FriendTcOp → Nat) (friend : Friend)
    (b0 : OperationsBatch) : Option (Friend × OperationsBatch × Bool) := do
  let tc ← consistentChannel friend.channelStatus
  let step1 :=
    if friend.wantedRemoteMaxDebt ≠ tc.remoteMaxDebt then
      OperationsBatch.add opLen b0 (.setRemoteMaxDebt friend.wantedRemoteMaxDebt)
    else (b0, some ())
  if step1.2.isNone then
    return (friend, step1.1, false)
  let step2 :=
    if friend.wantedLocalRequestsStatus ≠ tc.localRequestsStatus then
      OperationsBatch.add opLen step1.1
        (if friend.wantedLocalRequestsStatus = RequestsStatus.Open then
          FriendTcOp.enableRequests
        else FriendTcOp.disableRequests)
    else (step1.1, some ())
  if step2.2.isNone then
    return (friend, step2.1, false)
  return queueStage3to5 opLen friend step2.1

/-- Embeds `transmit_outgoing`: re-emit the current outgoing move-token
request (`none` where the source's `unreachable!()` would panic). -/
def transmit_outgoing (pk : Nat) (friend : Friend) : Option FunderOutgoingComm := do
  let tc ← consistentChannel friend.channelStatus
  match tc.direction with
  | .outgoing tco =>
    return .friendMessage pk (.moveTokenRequest tco.create_outgoing_move_token_request)
  | .incoming => none

/-- Embeds `send_friend_move_token`: requires a consistent incoming channel;
the speculative ledger application, freeze-guard update and signing (modules
not among the source files) are abstracted, the new outgoing move token
carrying exactly the queued operations with `token_wanted` initially false;
the move-token request is emitted. -/
def send_friend_move_token (pk : Nat) (friend : Friend)
    (operations : List FriendTcOp) : Option (Friend × List FunderOutgoingComm) := do
  let tc ← consistentChannel friend.channelStatus
  match tc.direction with
  | .outgoing _ => none
  | .incoming =>
    let tcOut : TcOutgoing := { moveTokenOut := operations, tokenWanted := false }
    let friend' :=
      { friend with channelStatus := .consistent { tc with direction := .outgoing tcOut } }
    return (friend',
      [.friendMessage pk (.moveTokenRequest tcOut.create_outgoing_move_token_request)])

/-- Embeds `send_through_token_channel`: with a consistent incoming channel,
fill a fresh batch of budget `MAX_MOVE_TOKEN_LENGTH` through
`queue_outgoing_operations` (its refusal result is ignored, as in the
source), and send a move token exactly when the mode is `EmptyAllowed` or
the batch is non-empty; the returned `Bool` says whether a move token was
scheduled. -/
def send_through_token_channel (opLen : FriendTcOp → Nat) (pk : Nat)
    (friend : Friend) (send_mode : SendMode) :
    Option (Friend × List FunderOutgoingComm × Bool) := do
  let tc ← consistentChannel friend.channelStatus
  match tc.direction with
  | .outgoing _ => none
  | .incoming =>
    let q ← queue_outgoing_operations opLen friend
      (OperationsBatch.new MAX_MOVE_TOKEN_LENGTH)
    let operations := q.2.1.done
    if send_mode = SendMode.EmptyAllowed ∨ operations ≠ [] then
      let r ← send_friend_move_token pk q.1 operations
      return (r.1, r.2, true)
    else
      return (q.1, [], false)

/-- Embeds `try_send_channel`: do nothing on an inconsistent channel; on an
incoming channel the source (a plain `fn`) calls the `async fn`
`send_through_token_channel` without `await!`, so the returned future is
dropped unpolled and nothing is batched, mutated or sent — the branch
leaves the friend unchanged and emits nothing; when outgoing with
`token_wanted = false`, apply the `SetTokenWanted` mutation and
retransmit the outgoing move-token request; when outgoing with
`token_wanted = true`, do nothing. -/
def try_send_channel (opLen : FriendTcOp → Nat) (pk : Nat) (friend : Friend)
    (send_mode : SendMode) : Option (Friend × List FunderOutgoingComm) :=
  match friend.channelStatus with
  | .inconsistent => some (friend, [])
  | .consistent tc =>
    match tc.direction with
    | .incoming => some (friend, [])
    | .outgoing tco =>
      if !tco.tokenWanted then
        let friend' :=
          { friend with
            channelStatus :=
              .consistent { tc with direction := .outgoing { tco with tokenWanted := true } } }
        (transmit_outgoing pk friend').map (fun comm => (friend', [comm]))
      else some (friend, [])

/-! ### The batcher's greedy characterisation (spec side)

The claim describes `queue_outgoing_operations` as draining one candidate
list in strict priority order, stopping at the first refusal of the byte
budget, popping each admitted element from its source queue at the moment of
admission.  The following functions state that behaviour over the plain
candidate list; the theorems relate the embedded code to them. -/

/-- The configuration operations tried before the queues, in order:
`SetRemoteMaxDebt` when wanted differs from current, then
`EnableRequests`/`DisableRequests` when wanted differs from current. -/
def headerOps (friend : Friend) (tc : TokenChannel) : List FriendTcOp :=
  (if friend.wantedRemoteMaxDebt ≠ tc.remoteMaxDebt then
      [FriendTcOp.setRemoteMaxDebt friend.wantedRemoteMaxDebt]
    else []) ++
  (if friend.wantedLocalRequestsStatus ≠ tc.localRequestsStatus then
      [if friend.wantedLocalRequestsStatus = RequestsStatus.Open then
        FriendTcOp.enableRequests
      else FriendTcOp.disableRequests]
    else [])

/-- The queue candidates, in the claimed order: pending responses front to
back, then pending requests, then pending user requests. -/
def tailCands (friend : Friend) : List FriendTcOp :=
  friend.pendingResponses.map opOfResponse ++
    friend.pendingRequests.map FriendTcOp.requestSendFunds ++
    friend.pendingUserRequests.map FriendTcOp.requestSendFunds

/-- The full candidate list, in the claimed strict priority order. -/
def candidateOps (friend : Friend) (tc : TokenChannel) : List FriendTcOp :=
  headerOps friend tc ++ tailCands friend

/-- How many operations a greedy pass admits before the first refusal. -/
def greedyCount (opLen : FriendTcOp → Nat) : Nat → List FriendTcOp → Nat
  | _, [] => 0
  | left, op :: rest =>
    if opLen op ≤ left then greedyCount opLen (left - opLen op) rest + 1 else 0

/-- The budget left after the greedy pass. -/
def greedyLeft (opLen : FriendTcOp → Nat) : Nat → List FriendTcOp → Nat
  | left, [] => left
  | left, op :: rest =>
    if opLen op ≤ left then greedyLeft opLen (left - opLen op) rest else left

theorem greedyCount_le_length (opLen : FriendTcOp → Nat) :
    ∀ (l : List FriendTcOp) (left : Nat), greedyCount opLen left l ≤ l.length := by
  intro l
  induction l with
  | nil => intro left; simp [greedyCount]
  | cons op rest ih =>
    intro left
    by_cases h : opLen op ≤ left <;> simp [greedyCount, h]
    exact ih (left - opLen op)

theorem drainList_spec {α : Type} (opLen : FriendTcOp → Nat) (toOp : α → FriendTcOp) :
    ∀ (l : List α) (b : OperationsBatch),
      drainList opLen toOp l b =
        (l.drop (greedyCount opLen b.bytes_left (l.map toOp)),
         { bytes_left := greedyLeft opLen b.bytes_left (l.map toOp)
           operations :=
             b.operations ++ (l.map toOp).take (greedyCount opLen b.bytes_left (l.map toOp)) },
         decide (greedyCount opLen b.bytes_left (l.map toOp) = l.length)) := by
  intro l
  induction l with
  | nil =>
    intro b
    simp [drainList, greedyCount, greedyLeft]
  | cons x rest ih =>
    intro b
    by_cases h : opLen (toOp x) ≤ b.bytes_left
    · have hadd : OperationsBatch.add opLen b (toOp x) =
          ({ bytes_left := b.bytes_left - opLen (toOp x)
             operations := b.operations ++ [toOp x] }, some ()) := by
        simp [OperationsBatch.add, h]
      simp only [drainList, hadd, List.map_cons, greedyCount, greedyLeft, if_pos h]
      rw [ih]
      have hc : ∀ n, (decide (n + 1 = rest.length + 1)) = decide (n = rest.length) := by
        intro n
        by_cases hn : n = rest.length <;> simp [hn]
      simp [hc]
    · have hadd : OperationsBatch.add opLen b (toOp x) = (b, none) := by
        simp [OperationsBatch.add, h]
      simp only [drainList, hadd, List.map_cons, greedyCount, greedyLeft, if_neg h]
      simp

theorem greedyCount_append (opLen : FriendTcOp → Nat) (xs ys : List FriendTcOp) :
    ∀ left, greedyCount opLen left (xs ++ ys) =
      if greedyCount opLen left xs = xs.length then
        xs.length + greedyCount opLen (greedyLeft opLen left xs) ys
      else greedyCount opLen left xs := by
  induction xs with
  | nil =>
    intro left
    simp [greedyCount, greedyLeft]
  | cons x rest ih =>
    intro left
    by_cases h : opLen x ≤ left
    · simp only [List.cons_append, List.append_eq, greedyCount, greedyLeft, if_pos h, List.length_cons]
      rw [ih (left - opLen x)]
      by_cases hc : greedyCount opLen (left - opLen x) rest = rest.length
      · simp only [hc, if_pos rfl]
        have : rest.length + 1 = rest.length + 1 := rfl
        simp [hc]
        omega
      · have hne : ¬(greedyCount opLen (left - opLen x) rest + 1 = rest.length + 1) := by
          omega
        simp [hc, hne]
    · simp only [List.cons_append, List.append_eq, greedyCount, greedyLeft, if_neg h, List.length_cons]
      have hne : ¬((0 : Nat) = rest.length + 1) := by omega
      simp [hne]

theorem greedyLeft_append (opLen : FriendTcOp → Nat) (xs ys : List FriendTcOp) :
    ∀ left, greedyLeft opLen left (xs ++ ys) =
      if greedyCount opLen left xs = xs.length then
        greedyLeft opLen (greedyLeft opLen left xs) ys
      else greedyLeft opLen left xs := by
  induction xs with
  | nil =>
    intro left
    simp [greedyCount, greedyLeft]
  | cons x rest ih =>
    intro left
    by_cases h : opLen x ≤ left
    · simp only [List.cons_append, List.append_eq, greedyCount, greedyLeft, if_pos h, List.length_cons]
      rw [ih (left - opLen x)]
      by_cases hc : greedyCount opLen (left - opLen x) rest = rest.length
      · have : greedyCount opLen (left - opLen x) rest + 1 = rest.length + 1 := by omega
        simp [hc, this]
      · have hne : ¬(greedyCount opLen (left - opLen x) rest + 1 = rest.length + 1) := by
          omega
        simp [hc, hne]
    · simp only [List.cons_append, List.append_eq, greedyCount, greedyLeft, if_neg h, List.length_cons]
      have hne : ¬((0 : Nat) = rest.length + 1) := by omega
      simp [hne, greedyLeft, if_neg h]

theorem greedyCount_append_full (opLen : FriendTcOp → Nat) (xs ys : List FriendTcOp)
    (left : Nat) (h : greedyCount opLen left xs = xs.length) :
    greedyCount opLen left (xs ++ ys) =
      xs.length + greedyCount opLen (greedyLeft opLen left xs) ys := by
  rw [greedyCount_append, if_pos h]

theorem greedyCount_append_stop (opLen : FriendTcOp → Nat) (xs ys : List FriendTcOp)
    (left : Nat) (h : ¬ greedyCount opLen left xs = xs.length) :
    greedyCount opLen left (xs ++ ys) = greedyCount opLen left xs := by
  rw [greedyCount_append, if_neg h]

theorem greedyLeft_append_full (opLen : FriendTcOp → Nat) (xs ys : List FriendTcOp)
    (left : Nat) (h : greedyCount opLen left xs = xs.length) :
    greedyLeft opLen left (xs ++ ys) =
      greedyLeft opLen (greedyLeft opLen left xs) ys := by
  rw [greedyLeft_append, if_pos h]

theorem greedyLeft_append_stop (opLen : FriendTcOp → Nat) (xs ys : List FriendTcOp)
    (left : Nat) (h : ¬ greedyCount opLen left xs = xs.length) :
    greedyLeft opLen left (xs ++ ys) = greedyLeft opLen left xs := by
  rw [greedyLeft_append, if_neg h]

theorem take_append_exact {α : Type} (xs ys : List α) (n : Nat) :
    (xs ++ ys).take (xs.length + n) = xs ++ ys.take n := by
  rw [List.take_append_eq_append_take,
    List.take_of_length_le (Nat.le_add_right _ _), Nat.add_sub_cancel_left]

theorem stage345_spec (opLen : FriendTcOp → Nat) (friend : Friend)
    (b2 : OperationsBatch) :
    queueStage3to5 opLen friend b2 =
      ({ friend with
          pendingResponses := friend.pendingResponses.drop
            (greedyCount opLen b2.bytes_left (tailCands friend))
          pendingRequests := friend.pendingRequests.drop
            (greedyCount opLen b2.bytes_left (tailCands friend) -
              friend.pendingResponses.length)
          pendingUserRequests := friend.pendingUserRequests.drop
            (greedyCount opLen b2.bytes_left (tailCands friend) -
              friend.pendingResponses.length - friend.pendingRequests.length) },
       { bytes_left := greedyLeft opLen b2.bytes_left (tailCands friend)
         operations := b2.operations ++
           (tailCands friend).take (greedyCount opLen b2.bytes_left (tailCands friend)) },
       decide (greedyCount opLen b2.bytes_left (tailCands friend) =
         (tailCands friend).length)) := by
  obtain ⟨cs, wrmd, wlrs, resp, reqs, users⟩ := friend
  have hR : (List.map opOfResponse resp).length = resp.length :=
    List.length_map resp opOfResponse
  have hQ : (List.map FriendTcOp.requestSendFunds reqs).length = reqs.length :=
    List.length_map reqs FriendTcOp.requestSendFunds
  have hU : (List.map FriendTcOp.requestSendFunds users).length = users.length :=
    List.length_map users FriendTcOp.requestSendFunds
  simp only [queueStage3to5, tailCands, drainList_spec, List.append_assoc]
  by_cases h3 : greedyCount opLen b2.bytes_left (List.map opOfResponse resp) = resp.length
  · have h3R : greedyCount opLen b2.bytes_left (List.map opOfResponse resp) =
        (List.map opOfResponse resp).length := by rw [hR]; exact h3
    have E1 := greedyCount_append_full opLen (List.map opOfResponse resp)
      (List.map FriendTcOp.requestSendFunds reqs ++ List.map FriendTcOp.requestSendFunds users)
      b2.bytes_left h3R
    have E3 := greedyLeft_append_full opLen (List.map opOfResponse resp)
      (List.map FriendTcOp.requestSendFunds reqs ++ List.map FriendTcOp.requestSendFunds users)
      b2.bytes_left h3R
    have hcond3 : (!decide (greedyCount opLen b2.bytes_left (List.map opOfResponse resp) =
        resp.length)) = false := by simp [h3]
    by_cases h4 : greedyCount opLen
        (greedyLeft opLen b2.bytes_left (List.map opOfResponse resp))
        (List.map FriendTcOp.requestSendFunds reqs) = reqs.length
    · have h4Q : greedyCount opLen
          (greedyLeft opLen b2.bytes_left (List.map opOfResponse resp))
          (List.map FriendTcOp.requestSendFunds reqs) =
          (List.map FriendTcOp.requestSendFunds reqs).length := by rw [hQ]; exact h4
      have E2 := greedyCount_append_full opLen (List.map FriendTcOp.requestSendFunds reqs)
        (List.map FriendTcOp.requestSendFunds users)
        (greedyLeft opLen b2.bytes_left (List.map opOfResponse resp)) h4Q
      have E4 := greedyLeft_append_full opLen (List.map FriendTcOp.requestSendFunds reqs)
        (List.map FriendTcOp.requestSendFunds users)
        (greedyLeft opLen b2.bytes_left (List.map opOfResponse resp)) h4Q
      have hcond4 : (!decide (greedyCount opLen
          (greedyLeft opLen b2.bytes_left (List.map opOfResponse resp))
          (List.map FriendTcOp.requestSendFunds reqs) = reqs.length)) = false := by simp [h4]
      have TR : List.take (greedyCount opLen b2.bytes_left (List.map opOfResponse resp))
          (List.map opOfResponse resp) = List.map opOfResponse resp := by
        rw [h3R]; exact List.take_length _
      have TQ : List.take (greedyCount opLen
          (greedyLeft opLen b2.bytes_left (List.map opOfResponse resp))
          (List.map FriendTcOp.requestSendFunds reqs))
          (List.map FriendTcOp.requestSendFunds reqs) =
          List.map FriendTcOp.requestSendFunds reqs := by
        rw [h4Q]; exact List.take_length _
      have DR : List.drop (greedyCount opLen b2.bytes_left (List.map opOfResponse resp))
          resp = [] := by rw [h3]; exact List.drop_length resp
      have DQ : List.drop (greedyCount opLen
          (greedyLeft opLen b2.bytes_left (List.map opOfResponse resp))
          (List.map FriendTcOp.requestSendFunds reqs)) reqs = [] := by
        rw [h4]; exact List.drop_length reqs
      simp only [hcond3, hcond4, Bool.false_eq_true, if_false, E1, E2, E3, E4, TR, TQ,
        DR, DQ, take_append_exact]
      refine congrArg₂ Prod.mk ?_ (congrArg₂ Prod.mk ?_ ?_)
      · have d1 : List.drop ((List.map opOfResponse resp).length +
            ((List.map FriendTcOp.requestSendFunds reqs).length +
              greedyCount opLen (greedyLeft opLen
                (greedyLeft opLen b2.bytes_left (List.map opOfResponse resp))
                (List.map FriendTcOp.requestSendFunds reqs))
                (List.map FriendTcOp.requestSendFunds users))) resp = [] :=
          List.drop_eq_nil_of_le (by omega)
        have d2 : (List.map opOfResponse resp).length +
            ((List.map FriendTcOp.requestSendFunds reqs).length +
              greedyCount opLen (greedyLeft opLen
                (greedyLeft opLen b2.bytes_left (List.map opOfResponse resp))
                (List.map FriendTcOp.requestSendFunds reqs))
                (List.map FriendTcOp.requestSendFunds users)) - resp.length =
            reqs.length + greedyCount opLen (greedyLeft opLen
              (greedyLeft opLen b2.bytes_left (List.map opOfResponse resp))
              (List.map FriendTcOp.requestSendFunds reqs))
              (List.map FriendTcOp.requestSendFunds users) := by omega
        have d3 : List.drop (reqs.length + greedyCount opLen (greedyLeft opLen
            (greedyLeft opLen b2.bytes_left (List.map opOfResponse resp))
            (List.map FriendTcOp.requestSendFunds reqs))
            (List.map FriendTcOp.requestSendFunds users)) reqs = [] :=
          List.drop_eq_nil_of_le (by omega)
        have d4 : (List.map opOfResponse resp).length +
            ((List.map FriendTcOp.requestSendFunds reqs).length +
              greedyCount opLen (greedyLeft opLen
                (greedyLeft opLen b2.bytes_left (List.map opOfResponse resp))
                (List.map FriendTcOp.requestSendFunds reqs))
                (List.map FriendTcOp.requestSendFunds users)) - resp.length - reqs.length =
            greedyCount opLen (greedyLeft opLen
              (greedyLeft opLen b2.bytes_left (List.map opOfResponse resp))
              (List.map FriendTcOp.requestSendFunds reqs))
              (List.map FriendTcOp.requestSendFunds users) := by omega
        simp only [d1, d2, d3, d4, Nat.add_sub_cancel_left]
      · simp [List.append_assoc]
      · refine decide_eq_decide.mpr ?_
        simp only [List.length_append, hR, hQ, hU]
        omega
    · have hcond4 : (!decide (greedyCount opLen
          (greedyLeft opLen b2.bytes_left (List.map opOfResponse resp))
          (List.map FriendTcOp.requestSendFunds reqs) = reqs.length)) = true := by simp [h4]
      have h4Q : ¬ greedyCount opLen
          (greedyLeft opLen b2.bytes_left (List.map opOfResponse resp))
          (List.map FriendTcOp.requestSendFunds reqs) =
          (List.map FriendTcOp.requestSendFunds reqs).length := by rw [hQ]; exact h4
      have E2 := greedyCount_append_stop opLen (List.map FriendTcOp.requestSendFunds reqs)
        (List.map FriendTcOp.requestSendFunds users)
        (greedyLeft opLen b2.bytes_left (List.map opOfResponse resp)) h4Q
      have E4 := greedyLeft_append_stop opLen (List.map FriendTcOp.requestSendFunds reqs)
        (List.map FriendTcOp.requestSendFunds users)
        (greedyLeft opLen b2.bytes_left (List.map opOfResponse resp)) h4Q
      have hg4le := greedyCount_le_length opLen (List.map FriendTcOp.requestSendFunds reqs)
        (greedyLeft opLen b2.bytes_left (List.map opOfResponse resp))
      have TR : List.take (greedyCount opLen b2.bytes_left (List.map opOfResponse resp))
          (List.map opOfResponse resp) = List.map opOfResponse resp := by
        rw [h3R]; exact List.take_length _
      have DR : List.drop (greedyCount opLen b2.bytes_left (List.map opOfResponse resp))
          resp = [] := by rw [h3]; exact List.drop_length resp
      simp only [hcond3, hcond4, Bool.false_eq_true, if_false, if_true, E1, E2, E3, E4,
        TR, DR, take_append_exact]
      refine congrArg₂ Prod.mk ?_ (congrArg₂ Prod.mk ?_ ?_)
      · have d1 : List.drop ((List.map opOfResponse resp).length +
            greedyCount opLen (greedyLeft opLen b2.bytes_left (List.map opOfResponse resp))
              (List.map FriendTcOp.requestSendFunds reqs)) resp = [] :=
          List.drop_eq_nil_of_le (by omega)
        have d2 : (List.map opOfResponse resp).length +
            greedyCount opLen (greedyLeft opLen b2.bytes_left (List.map opOfResponse resp))
              (List.map FriendTcOp.requestSendFunds reqs) - resp.length =
            greedyCount opLen (greedyLeft opLen b2.bytes_left (List.map opOfResponse resp))
              (List.map FriendTcOp.requestSendFunds reqs) := by omega
        have d5 : greedyCount opLen (greedyLeft opLen b2.bytes_left (List.map opOfResponse resp))
            (List.map FriendTcOp.requestSendFunds reqs) - reqs.length = 0 := by omega
        simp only [d1, d2, d5, List.drop_zero]
      · have t1 : List.take (greedyCount opLen
            (greedyLeft opLen b2.bytes_left (List.map opOfResponse resp))
            (List.map FriendTcOp.requestSendFunds reqs))
            (List.map FriendTcOp.requestSendFunds reqs ++
              List.map FriendTcOp.requestSendFunds users) =
            List.take (greedyCount opLen
              (greedyLeft opLen b2.bytes_left (List.map opOfResponse resp))
              (List.map FriendTcOp.requestSendFunds reqs))
              (List.map FriendTcOp.requestSendFunds reqs) := by
          rw [List.take_append_eq_append_take]
          have hz : greedyCount opLen
              (greedyLeft opLen b2.bytes_left (List.map opOfResponse resp))
              (List.map FriendTcOp.requestSendFunds reqs) - reqs.length = 0 := by omega
          simp [hz]
        simp [t1, List.append_assoc]
      · refine (decide_eq_false ?_).symm
        simp only [List.length_append, hR, hQ, hU]
        omega
  · have h3R : ¬ greedyCount opLen b2.bytes_left (List.map opOfResponse resp) =
        (List.map opOfResponse resp).length := by rw [hR]; exact h3
    have E1 := greedyCount_append_stop opLen (List.map opOfResponse resp)
      (List.map FriendTcOp.requestSendFunds reqs ++ List.map FriendTcOp.requestSendFunds users)
      b2.bytes_left h3R
    have E3 := greedyLeft_append_stop opLen (List.map opOfResponse resp)
      (List.map FriendTcOp.requestSendFunds reqs ++ List.map FriendTcOp.requestSendFunds users)
      b2.bytes_left h3R
    have hcond3 : (!decide (greedyCount opLen b2.bytes_left (List.map opOfResponse resp) =
        resp.length)) = true := by simp [h3]
    have hg3le := greedyCount_le_length opLen (List.map opOfResponse resp) b2.bytes_left
    simp only [hcond3, if_true, E1, E3]
    refine congrArg₂ Prod.mk ?_ (congrArg₂ Prod.mk ?_ ?_)
    · have d2 : greedyCount opLen b2.bytes_left (List.map opOfResponse resp) -
          resp.length = 0 := by omega
      have d4 : greedyCount opLen b2.bytes_left (List.map opOfResponse resp) -
          resp.length - reqs.length = 0 := by omega
      simp only [d2, d4, Nat.zero_sub, List.drop_zero]
    · have t1 : List.take (greedyCount opLen b2.bytes_left (List.map opOfResponse resp))
          (List.map opOfResponse resp ++
            (List.map FriendTcOp.requestSendFunds reqs ++
              List.map FriendTcOp.requestSendFunds users)) =
          List.take (greedyCount opLen b2.bytes_left (List.map opOfResponse resp))
            (List.map opOfResponse resp) := by
        rw [List.take_append_eq_append_take]
        have hz : greedyCount opLen b2.bytes_left (List.map opOfResponse resp) -
            resp.length = 0 := by omega
        simp [hz]
      simp [t1, List.append_assoc]
    · refine (decide_eq_false ?_).symm
      simp only [List.length_append, hR, hQ, hU]
      omega

theorem stepAdd_spec (opLen : FriendTcOp → Nat) (c : Prop) [Decidable c]
    (op : FriendTcOp) (b : OperationsBatch) :
    (if c then OperationsBatch.add opLen b op else (b, some ())) =
      ({ bytes_left := greedyLeft opLen b.bytes_left (if c then [op] else [])
         operations := b.operations ++
           (if c then [op] else []).take
             (greedyCount opLen b.bytes_left (if c then [op] else [])) },
       if greedyCount opLen b.bytes_left (if c then [op] else []) =
           (if c then [op] else []).length then some () else none) := by
  by_cases hc : c
  · by_cases hl : opLen op ≤ b.bytes_left <;>
      simp [hc, OperationsBatch.add, greedyCount, greedyLeft, hl]
  · simp [hc, greedyCount, greedyLeft]

theorem queue_spec (opLen : FriendTcOp → Nat) (friend : Friend) (tc : TokenChannel)
    (b0 : OperationsBatch) (h : friend.channelStatus = .consistent tc) :
    queue_outgoing_operations opLen friend b0 =
      some
        ({ friend with
            pendingResponses := friend.pendingResponses.drop
              (greedyCount opLen b0.bytes_left (candidateOps friend tc) -
                (headerOps friend tc).length)
            pendingRequests := friend.pendingRequests.drop
              (greedyCount opLen b0.bytes_left (candidateOps friend tc) -
                (headerOps friend tc).length - friend.pendingResponses.length)
            pendingUserRequests := friend.pendingUserRequests.drop
              (greedyCount opLen b0.bytes_left (candidateOps friend tc) -
                (headerOps friend tc).length - friend.pendingResponses.length -
                friend.pendingRequests.length) },
         { bytes_left := greedyLeft opLen b0.bytes_left (candidateOps friend tc)
           operations := b0.operations ++
             (candidateOps friend tc).take
               (greedyCount opLen b0.bytes_left (candidateOps friend tc)) },
         decide (greedyCount opLen b0.bytes_left (candidateOps friend tc) =
           (candidateOps friend tc).length)) := by
  -- Shorthand for the two header candidate sub-lists and the queue tail.
  set H1 : List FriendTcOp :=
    if friend.wantedRemoteMaxDebt ≠ tc.remoteMaxDebt then
      [FriendTcOp.setRemoteMaxDebt friend.wantedRemoteMaxDebt]
    else [] with hH1
  set H2 : List FriendTcOp :=
    if friend.wantedLocalRequestsStatus ≠ tc.localRequestsStatus then
      [if friend.wantedLocalRequestsStatus = RequestsStatus.Open then
        FriendTcOp.enableRequests
      else FriendTcOp.disableRequests]
    else [] with hH2
  set T : List FriendTcOp := tailCands friend with hT
  have hcand : candidateOps friend tc = H1 ++ (H2 ++ T) := by
    simp [candidateOps, headerOps, tailCands, hH1, hH2, hT, List.append_assoc]
  have hhead : (headerOps friend tc).length = H1.length + H2.length := by
    simp [headerOps, hH1, hH2]
  simp only [queue_outgoing_operations, h, consistentChannel, Option.bind_eq_bind,
    Option.some_bind, ← hH1, ← hH2]
  rw [stepAdd_spec opLen _ _ b0, ← hH1]
  by_cases hk1 : greedyCount opLen b0.bytes_left H1 = H1.length
  · have ho1 : (if greedyCount opLen b0.bytes_left H1 = H1.length then some () else none) =
        some () := if_pos hk1
    have T1 : H1.take (greedyCount opLen b0.bytes_left H1) = H1 := by
      rw [hk1]; exact List.take_length _
    simp only [ho1, Option.isNone_some, Bool.false_eq_true, if_false, T1]
    rw [stepAdd_spec opLen _ _
      ({ bytes_left := greedyLeft opLen b0.bytes_left H1
         operations := b0.operations ++ H1 } : OperationsBatch), ← hH2]
    by_cases hk2 : greedyCount opLen (greedyLeft opLen b0.bytes_left H1) H2 = H2.length
    · have ho2 : (if greedyCount opLen (greedyLeft opLen b0.bytes_left H1) H2 = H2.length
          then some () else none) = some () := if_pos hk2
      have T2 : H2.take (greedyCount opLen (greedyLeft opLen b0.bytes_left H1) H2) = H2 := by
        rw [hk2]; exact List.take_length _
      simp only [ho2, Option.isNone_some, Bool.false_eq_true, if_false, T2]
      rw [stage345_spec]
      have E1 := greedyCount_append_full opLen H1 (H2 ++ T) b0.bytes_left hk1
      have F1 := greedyLeft_append_full opLen H1 (H2 ++ T) b0.bytes_left hk1
      have E2 := greedyCount_append_full opLen H2 T
        (greedyLeft opLen b0.bytes_left H1) hk2
      have F2 := greedyLeft_append_full opLen H2 T
        (greedyLeft opLen b0.bytes_left H1) hk2
      simp only [hcand, hhead, E1, F1, E2, F2, ← hT]
      refine congrArg some (congrArg₂ Prod.mk ?_ (congrArg₂ Prod.mk ?_ ?_))
      · have a1 : ∀ n : Nat, H1.length + (H2.length + n) - (H1.length + H2.length) = n := by
          intro n
          omega
        simp only [a1]
        rw [h]
      · have t4 : (H1 ++ (H2 ++ T)).take
            (H1.length + (H2.length +
              greedyCount opLen
                (greedyLeft opLen (greedyLeft opLen b0.bytes_left H1) H2) T)) =
            H1 ++ (H2 ++ T.take (greedyCount opLen
              (greedyLeft opLen (greedyLeft opLen b0.bytes_left H1) H2) T)) := by
          rw [take_append_exact, take_append_exact]
        simp only [t4, List.append_assoc]
      · refine decide_eq_decide.mpr ?_
        simp only [List.length_append]
        omega
    · have ho2 : (if greedyCount opLen (greedyLeft opLen b0.bytes_left H1) H2 = H2.length
          then some () else none) = (none : Option Unit) := if_neg hk2
      have hle2 := greedyCount_le_length opLen H2 (greedyLeft opLen b0.bytes_left H1)
      simp only [ho2, Option.isNone_none, if_true]
      have E1 := greedyCount_append_full opLen H1 (H2 ++ T) b0.bytes_left hk1
      have F1 := greedyLeft_append_full opLen H1 (H2 ++ T) b0.bytes_left hk1
      have E2 := greedyCount_append_stop opLen H2 T
        (greedyLeft opLen b0.bytes_left H1) hk2
      have F2 := greedyLeft_append_stop opLen H2 T
        (greedyLeft opLen b0.bytes_left H1) hk2
      simp only [hcand, hhead, E1, F1, E2, F2]
      refine congrArg some (congrArg₂ Prod.mk ?_ (congrArg₂ Prod.mk ?_ ?_))
      · have z1 : H1.length + greedyCount opLen (greedyLeft opLen b0.bytes_left H1) H2 -
            (H1.length + H2.length) = 0 := by omega
        simp only [z1, Nat.zero_sub, List.drop_zero]
        rw [← h]
      · have t4 : (H2 ++ T).take
            (greedyCount opLen (greedyLeft opLen b0.bytes_left H1) H2) =
            H2.take (greedyCount opLen (greedyLeft opLen b0.bytes_left H1) H2) := by
          rw [List.take_append_eq_append_take]
          have hz : greedyCount opLen (greedyLeft opLen b0.bytes_left H1) H2 -
              H2.length = 0 := by omega
          simp [hz]
        rw [take_append_exact, t4, List.append_assoc]
      · refine (decide_eq_false ?_).symm
        simp only [List.length_append]
        omega
  · have ho1 : (if greedyCount opLen b0.bytes_left H1 = H1.length then some () else none) =
        (none : Option Unit) := if_neg hk1
    have hle1 := greedyCount_le_length opLen H1 b0.bytes_left
    simp only [ho1, Option.isNone_none, if_true]
    have E1 := greedyCount_append_stop opLen H1 (H2 ++ T) b0.bytes_left hk1
    have F1 := greedyLeft_append_stop opLen H1 (H2 ++ T) b0.bytes_left hk1
    simp only [hcand, hhead, E1, F1]
    refine congrArg some (congrArg₂ Prod.mk ?_ (congrArg₂ Prod.mk ?_ ?_))
    · have z1 : greedyCount opLen b0.bytes_left H1 - (H1.length + H2.length) = 0 := by
        omega
      simp only [z1, Nat.zero_sub, List.drop_zero]
      rw [← h]
    · have t4 : (H1 ++ (H2 ++ T)).take (greedyCount opLen b0.bytes_left H1) =
          H1.take (greedyCount opLen b0.bytes_left H1) := by
        rw [List.take_append_eq_append_take]
        have hz : greedyCount opLen b0.bytes_left H1 - H1.length = 0 := by omega
        simp [hz]
      rw [t4]
    · refine (decide_eq_false ?_).symm
      simp only [List.length_append]
      omega

/-- The operations `send_through_token_channel` ends up with in its batch:
the greedy prefix of the candidate list within the `MAX_MOVE_TOKEN_LENGTH`
budget. -/
def queuedOps (opLen : FriendTcOp → Nat) (friend : Friend) (tc : TokenChannel) :
    List FriendTcOp :=
  (candidateOps friend tc).take
    (greedyCount opLen MAX_MOVE_TOKEN_LENGTH (candidateOps friend tc))

/-- Fold a sequence of `add` calls on a batch, keeping the batch of each
step whatever the call returns (as callers that ignore the `Option` do). -/
def applyAdds (opLen : FriendTcOp → Nat) (b : OperationsBatch)
    (ops : List FriendTcOp) : OperationsBatch :=
  ops.foldl (fun b op => (OperationsBatch.add opLen b op).1) b

theorem add_size_invariant (opLen : FriendTcOp → Nat) (b : OperationsBatch)
    (op : FriendTcOp) :
    (((OperationsBatch.add opLen b op).1.operations.map opLen).sum +
        (OperationsBatch.add opLen b op).1.bytes_left) =
      ((b.operations.map opLen).sum + b.bytes_left) := by
  by_cases hl : opLen op ≤ b.bytes_left <;>
    simp [OperationsBatch.add, hl, List.map_append, List.sum_append] <;> omega

theorem applyAdds_size_invariant (opLen : FriendTcOp → Nat) :
    ∀ (ops : List FriendTcOp) (b : OperationsBatch),
      (((applyAdds opLen b ops).operations.map opLen).sum +
          (applyAdds opLen b ops).bytes_left) =
        ((b.operations.map opLen).sum + b.bytes_left) := by
  intro ops
  induction ops with
  | nil =>
    intro b
    rfl
  | cons op rest ih =>
    intro b
    simp only [applyAdds, List.foldl_cons]
    have := ih ((OperationsBatch.add opLen b op).1)
    simp only [applyAdds] at this
    rw [this, add_size_invariant]

/-- A concrete operation size for the witnesses: every operation counts 3
bytes. -/
def lenW : FriendTcOp → Nat := fun _ => 3

/-- The consistent incoming token channel of the witness friend. -/
def tcW : TokenChannel :=
  { direction := .incoming
    remoteMaxDebt := 0
    localRequestsStatus := RequestsStatus.Open }

/-- The witness friend: wants a different remote max debt, and has one
pending response, one pending request and one pending user request. -/
def fW : Friend :=
  { channelStatus := .consistent tcW
    wantedRemoteMaxDebt := 5
    wantedLocalRequestsStatus := RequestsStatus.Open
    pendingResponses := [ResponseOp.response 1]
    pendingRequests := [2]
    pendingUserRequests := [3] }

end Funder

namespace SigBuff

/-!
Embedding of `create_response_signature_buffer` of
`src/components/signature/src/signature_buff.rs`.  Bytes are `Nat`,
buffers are `List Nat`.  The hash function (`sha_512_256`) and the canonical
serialisations of `bool` and `Currency` (their modules are not among the
source files) are parameters.
-/

/-- The ASCII bytes of `FUNDS_RESPONSE_PREFIX = b"FUND_RESPONSE"`. -/
def FUNDS_RESPONSE_TAG : List Nat :=
  [70, 85, 78, 68, 95, 82, 69, 83, 80, 79, 78, 83, 69]

/-- Embeds `PendingTransaction` restricted to the fields the signature
buffer reads, plus the route (not signed here, which the canonicity part of
the claim exercises). -/
structure PendingTransaction where
  request_id : List Nat
  route : List Nat
  src_hashed_lock : List Nat
  dest_payment : Nat
  total_dest_payment : Nat
  invoice_id : List Nat
  deriving DecidableEq

/-- Embeds `UnsignedResponseSendFundsOp` restricted to the fields the
signature buffer reads. -/
structure UnsignedResponseSendFundsOp where
  rand_nonce : List Nat
  dest_hashed_lock : List Nat
  is_complete : Bool
  deriving DecidableEq

/-- Big-endian byte representation on `w` bytes (`write_u128::<BigEndian>`
with `w = 16`). -/
def beBytes : Nat → Nat → List Nat
  | 0, _ => []
  | w + 1, n => beBytes w (n / 256) ++ [n % 256]

/-- Embeds `create_response_signature_buffer`, translating the sequence of
`extend_from_slice`/`write_u128` pushes; `sha` is `sha_512_256`, `serBool`
and `serCurrency` the canonical serialisations. -/
def create_response_signature_buffer (sha : List Nat → List Nat)
    (serBool : Bool → List Nat) (serCurrency : List Nat → List Nat)
    (currency : List Nat) (response_send_funds : UnsignedResponseSendFundsOp)
    (pending_transaction : PendingTransaction) : List Nat :=
  let sbuffer : List Nat := []
  let sbuffer := sbuffer ++ sha FUNDS_RESPONSE_TAG
  let inner_blob : List Nat := []
  let inner_blob := inner_blob ++ pending_transaction.request_id
  let inner_blob := inner_blob ++ response_send_funds.rand_nonce
  let sbuffer := sbuffer ++ sha inner_blob
  let sbuffer := sbuffer ++ pending_transaction.src_hashed_lock
  let sbuffer := sbuffer ++ response_send_funds.dest_hashed_lock
  let sbuffer := sbuffer ++ serBool response_send_funds.is_complete
  let sbuffer := sbuffer ++ beBytes 16 pending_transaction.dest_payment
  let sbuffer := sbuffer ++ beBytes 16 pending_transaction.total_dest_payment
  let sbuffer := sbuffer ++ pending_transaction.invoice_id
  let sbuffer := sbuffer ++ serCurrency currency
  sbuffer

end SigBuff

end Offst

/-- Claim C4: `verify_freezing_links` is claimed to accept exactly when, for
every index `k`, the credits to freeze at hop `k` do not exceed the k-th
link's `shared_credits · usable_ratio` with `Numerator n` read as `n / 2^64`.
The code accepts the concrete single-link input with `shared_credits = 1`,
`usable_ratio = Numerator 2` and credits 2, although the claimed bound
`2 ≤ 1 · 2/2^64` fails: the source's `two_pow_64` is in fact 1 (its
little-endian digit vector is reversed), so a `Numerator n` link multiplies
by `n` instead of `n / 2^64`. -/
theorem c4_two_pow_64_is_one :
    Offst.Networker.verify_freezing_links Offst.Networker.c4Credits
        Offst.Networker.c4Links = some () ∧
      Offst.Networker.claimShareBoundOk Offst.Networker.c4Credits
        Offst.Networker.c4Links 0 = false := by
  decide

/-- Claim C1: when the next hop of an incoming `RequestSendFunds` is not a
known friend, the claim says a locally signed failure is enqueued upstream
and the request is NOT forwarded.  On the concrete input (`c1State`, route
`[10, 20, 30]`, local node 20, next hop 30 unknown, freeze verification
passing on the empty freeze-link vector), `handle_request_send_msg` does
both: it enqueues the signed failure on upstream neighbor 10's channel AND
pushes the request — with the local freeze link appended — onto a neighbor's
pending requests; moreover, `forward_request` obtains the "next" public key
from `pk_by_index(prev_index)`, so the forward lands on the upstream
neighbor 10 itself. -/
theorem c1_failure_and_forward_both_occur :
    (Offst.Networker.c1Out.map (fun s' =>
        (Offst.Networker.pendingOpsOf s' 10 0,
         Offst.Networker.pendingRequestsOf s' 10))) =
      some
        ([Offst.Networker.NeighborTcOp.failureSendMessage
            { request_id := 5
              reporting_public_key := 20
              rand_nonce_signatures := [{ rand_nonce := 0, signature := 0 }] }],
         [{ request_id := 5
            route := [10, 20, 30]
            request_content := []
            max_response_len := 0
            processing_fee_proposal := 0
            freeze_links := [{ shared_credits := 1
                               usable_ratio := Offst.Networker.Ratio.numerator 1 }] }]) := by
  decide

/-- Claim C2: `find_request_origin` is claimed to return the neighbor whose
`pending_remote_requests` table contains the request id.  On the concrete
state `c2State`, request 42 sits in neighbor 1's table and in no other, yet
the function returns neighbor 2 — `find_token_channel_by_request_id` tests
`.get(request_id).is_none()` instead of `.is_some()`, inverting the
membership test against its own documentation. -/
theorem c2_find_request_origin_inverted :
    Offst.Networker.c2State.find_request_origin 42 = some (2, 0) ∧
      42 ∈ Offst.Networker.c2SlotA.pendingRemoteRequests ∧
      42 ∉ Offst.Networker.c2SlotB.pendingRemoteRequests := by
  decide

/-- Claim C3, counterexample: the claim says a remote reset is triggered
exactly when the incoming move token's `old_token` equals the advertised
reset token.  On `c3State` the advertised reset token is 7 and the move
token `c3Mt` has `old_token = 7` but `new_token = 3`; `check_reset_channel`
— which `handle_move_token` feeds with `new_token` — leaves the state
unchanged and no reset happens. -/
theorem c3_old_token_match_does_not_reset :
    Offst.Networker.c3Mt.old_token = Offst.Networker.c3Slot.resetToken ∧
      Offst.Networker.c3State.check_reset_channel Offst.Networker.zeroSign 1 0
          Offst.Networker.c3Mt.new_token = some Offst.Networker.c3State ∧
      Offst.Networker.slotWasReset Offst.Networker.c3State 1 0 = false := by
  decide

/-- Claim C3 as amended: for an incoming move token on an existing,
not-yet-reset channel, `check_reset_channel` — fed by `handle_move_token`
with the move token's `new_token` field — triggers the remote reset exactly
when `new_token` equals the reset token the local node advertised. -/
theorem c3_reset_iff_new_token_matches (sign : List Nat → Nat)
    (s : Offst.Networker.MessengerState) (pk ci : Nat)
    (slot : Offst.Networker.TokenChannelSlot) (mt : Offst.Networker.NeighborMoveToken)
    (h : s.getSlot pk ci = some slot) (hw : slot.wasReset = false) :
    ∃ s', s.check_reset_channel sign pk ci mt.new_token = some s' ∧
      (Offst.Networker.slotWasReset s' pk ci = true ↔
        mt.new_token = slot.resetToken) := by
  by_cases htok : mt.new_token = slot.resetToken
  · refine ⟨(Offst.Networker.cancelLoop sign s slot.pendingLocalRequests).applyMutation
      (.neighborMutation pk (.slotMutation ci .remoteReset)), ?_, ?_⟩
    · simp [Offst.Networker.MessengerState.check_reset_channel,
        Offst.Networker.MessengerState.cancel_local_pending_requests, h, htok]
    · constructor
      · intro _
        exact htok
      · intro _
        apply Offst.Networker.slotWasReset_after_remoteReset
        rw [Offst.Networker.getSlot_isSome_cancelLoop, h]
        rfl
  · refine ⟨s, ?_, ?_⟩
    · simp [Offst.Networker.MessengerState.check_reset_channel, h, htok]
    · simp [Offst.Networker.slotWasReset, h, hw, htok]

/-- Claim C3, witness: the general theorem applied at the concrete state
`c3State` and move token `c3Mt`. -/
theorem c3_reset_iff_new_token_matches_witness :
    ∃ s', Offst.Networker.c3State.check_reset_channel Offst.Networker.zeroSign 1 0
        Offst.Networker.c3Mt.new_token = some s' ∧
      (Offst.Networker.slotWasReset s' 1 0 = true ↔
        Offst.Networker.c3Mt.new_token = Offst.Networker.c3Slot.resetToken) :=
  c3_reset_iff_new_token_matches Offst.Networker.zeroSign Offst.Networker.c3State 1 0
    Offst.Networker.c3Slot Offst.Networker.c3Mt (by decide) (by decide)

/-- Claim C10: when an incoming move token triggers a remote reset, the
cancellation of pending local requests happens before the reset mutation:
`cancel_local_pending_requests` queues, for every pending local request of
the slot whose origin `find_request_origin` finds, a failure reported by the
local public key and signed over a buffer holding a fresh rand nonce, as a
pending operation on that origin's channel, in list order (`plannedFailures`
computed against the pre-cancellation state, `applyFailures` applying the
corresponding mutations); requests with no origin are skipped with no
mutation, and `check_reset_channel` applies the `RemoteReset` mutation to
the post-cancellation state. -/
theorem c10_cancel_queues_failures_before_reset (sign : List Nat → Nat)
    (s : Offst.Networker.MessengerState) (pk ci : Nat)
    (slot : Offst.Networker.TokenChannelSlot)
    (h : s.getSlot pk ci = some slot) :
    s.cancel_local_pending_requests sign pk ci =
        some (Offst.Networker.applyFailures s
          (Offst.Networker.plannedFailures sign s s.nonceCtr slot.pendingLocalRequests)) ∧
      s.check_reset_channel sign pk ci slot.resetToken =
        some ((Offst.Networker.applyFailures s
            (Offst.Networker.plannedFailures sign s s.nonceCtr
              slot.pendingLocalRequests)).applyMutation
          (.neighborMutation pk (.slotMutation ci .remoteReset))) := by
  have hcl : Offst.Networker.cancelLoop sign s slot.pendingLocalRequests =
      Offst.Networker.applyFailures s
        (Offst.Networker.plannedFailures sign s s.nonceCtr slot.pendingLocalRequests) :=
    Offst.Networker.cancelLoop_eq_applyFailures sign s slot.pendingLocalRequests s rfl rfl
  constructor
  · simp [Offst.Networker.MessengerState.cancel_local_pending_requests, h, hcl]
  · simp [Offst.Networker.MessengerState.check_reset_channel,
      Offst.Networker.MessengerState.cancel_local_pending_requests, h, hcl]

/-- Claim C10, witness: the general theorem applied at the concrete state
`w10State`, whose slot holds one pending local request with a found origin. -/
theorem c10_cancel_queues_failures_before_reset_witness :
    Offst.Networker.w10State.cancel_local_pending_requests Offst.Networker.zeroSign 1 0 =
        some (Offst.Networker.applyFailures Offst.Networker.w10State
          (Offst.Networker.plannedFailures Offst.Networker.zeroSign Offst.Networker.w10State
            Offst.Networker.w10State.nonceCtr
            Offst.Networker.w10Slot.pendingLocalRequests)) ∧
      Offst.Networker.w10State.check_reset_channel Offst.Networker.zeroSign 1 0
          Offst.Networker.w10Slot.resetToken =
        some ((Offst.Networker.applyFailures Offst.Networker.w10State
            (Offst.Networker.plannedFailures Offst.Networker.zeroSign Offst.Networker.w10State
              Offst.Networker.w10State.nonceCtr
              Offst.Networker.w10Slot.pendingLocalRequests)).applyMutation
          (.neighborMutation 1 (.slotMutation 0 .remoteReset))) :=
  c10_cancel_queues_failures_before_reset Offst.Networker.zeroSign
    Offst.Networker.w10State 1 0 Offst.Networker.w10Slot (by decide)

/-- Claim C5: `queue_outgoing_operations` drains its sources in the strict
priority order `SetRemoteMaxDebt` (only when the wanted value differs),
`EnableRequests`/`DisableRequests` (only when the wanted status differs),
pending responses front to back, pending requests, pending user requests:
its batch receives exactly the greedy prefix of that candidate list under
the byte budget (the first refusal stopping the whole batch), and each
queue keeps exactly its elements not admitted (every admitted element
having been popped by a mutation at its admission), so no queue slot is
ever emitted twice. -/
theorem c5_queue_outgoing_operations_priority_order (opLen : Offst.Funder.FriendTcOp → Nat)
    (friend : Offst.Funder.Friend) (tc : Offst.Funder.TokenChannel)
    (b0 : Offst.Funder.OperationsBatch)
    (h : friend.channelStatus = .consistent tc) :
    Offst.Funder.queue_outgoing_operations opLen friend b0 =
      some
        ({ friend with
            pendingResponses := friend.pendingResponses.drop
              (Offst.Funder.greedyCount opLen b0.bytes_left
                  (Offst.Funder.candidateOps friend tc) -
                (Offst.Funder.headerOps friend tc).length)
            pendingRequests := friend.pendingRequests.drop
              (Offst.Funder.greedyCount opLen b0.bytes_left
                  (Offst.Funder.candidateOps friend tc) -
                (Offst.Funder.headerOps friend tc).length -
                friend.pendingResponses.length)
            pendingUserRequests := friend.pendingUserRequests.drop
              (Offst.Funder.greedyCount opLen b0.bytes_left
                  (Offst.Funder.candidateOps friend tc) -
                (Offst.Funder.headerOps friend tc).length -
                friend.pendingResponses.length - friend.pendingRequests.length) },
         { bytes_left := Offst.Funder.greedyLeft opLen b0.bytes_left
             (Offst.Funder.candidateOps friend tc)
           operations := b0.operations ++
             (Offst.Funder.candidateOps friend tc).take
               (Offst.Funder.greedyCount opLen b0.bytes_left
                 (Offst.Funder.candidateOps friend tc)) },
         decide (Offst.Funder.greedyCount opLen b0.bytes_left
             (Offst.Funder.candidateOps friend tc) =
           (Offst.Funder.candidateOps friend tc).length)) :=
  Offst.Funder.queue_spec opLen friend tc b0 h

/-- Claim C5, witness: the characterisation applied to the concrete friend
`fW` with a budget of 7 bytes and 3 bytes per operation, which admits the
`SetRemoteMaxDebt` and the pending response, then refuses the pending
request. -/
theorem c5_queue_outgoing_operations_priority_order_witness :
    Offst.Funder.queue_outgoing_operations Offst.Funder.lenW Offst.Funder.fW
        (Offst.Funder.OperationsBatch.new 7) =
      some
        ({ channelStatus := .consistent Offst.Funder.tcW
           wantedRemoteMaxDebt := 5
           wantedLocalRequestsStatus := Offst.Funder.RequestsStatus.Open
           pendingResponses := []
           pendingRequests := [2]
           pendingUserRequests := [3] },
         { bytes_left := 1
           operations := [Offst.Funder.FriendTcOp.setRemoteMaxDebt 5,
             Offst.Funder.FriendTcOp.responseSendFunds 1] },
         false) := by
  rw [c5_queue_outgoing_operations_priority_order Offst.Funder.lenW Offst.Funder.fW
    Offst.Funder.tcW (Offst.Funder.OperationsBatch.new 7) rfl]
  decide

/-- Claim C6: with a consistent incoming channel,
`send_through_token_channel` finalises and schedules an outgoing move token
exactly when the send mode is `EmptyAllowed` or at least one operation was
admitted into the batch (`queuedOps`), returning `true` and emitting the
move-token request carrying those operations; otherwise it sends nothing
and returns `false`. -/
theorem c6_send_through_token_channel_condition (opLen : Offst.Funder.FriendTcOp → Nat)
    (pk : Nat) (friend : Offst.Funder.Friend) (tc : Offst.Funder.TokenChannel)
    (send_mode : Offst.Funder.SendMode)
    (h : friend.channelStatus = .consistent tc) (hd : tc.direction = .incoming) :
    ∃ r, Offst.Funder.send_through_token_channel opLen pk friend send_mode = some r ∧
      (r.2.2 = true ↔
        (send_mode = Offst.Funder.SendMode.EmptyAllowed ∨
          Offst.Funder.queuedOps opLen friend tc ≠ [])) ∧
      (r.2.2 = true →
        r.2.1 = [Offst.Funder.FunderOutgoingComm.friendMessage pk
          (Offst.Funder.FriendMessage.moveTokenRequest
            { operations := Offst.Funder.queuedOps opLen friend tc
              token_wanted := false })]) ∧
      (r.2.2 = false → r.2.1 = []) := by
  have hq := Offst.Funder.queue_spec opLen friend tc
    (Offst.Funder.OperationsBatch.new Offst.Funder.MAX_MOVE_TOKEN_LENGTH) h
  have hops : (Offst.Funder.OperationsBatch.new
        Offst.Funder.MAX_MOVE_TOKEN_LENGTH).operations ++
      (Offst.Funder.candidateOps friend tc).take
        (Offst.Funder.greedyCount opLen
          (Offst.Funder.OperationsBatch.new
            Offst.Funder.MAX_MOVE_TOKEN_LENGTH).bytes_left
          (Offst.Funder.candidateOps friend tc)) =
      Offst.Funder.queuedOps opLen friend tc := by
    simp [Offst.Funder.OperationsBatch.new, Offst.Funder.queuedOps]
  obtain ⟨F, B, D, hq2, hFc, hBop⟩ :
      ∃ F B D, Offst.Funder.queue_outgoing_operations opLen friend
          (Offst.Funder.OperationsBatch.new Offst.Funder.MAX_MOVE_TOKEN_LENGTH) =
            some (F, B, D) ∧
          F.channelStatus = friend.channelStatus ∧
          B.operations = Offst.Funder.queuedOps opLen friend tc :=
    ⟨_, _, _, hq, rfl, hops⟩
  by_cases hcond : send_mode = Offst.Funder.SendMode.EmptyAllowed ∨
      Offst.Funder.queuedOps opLen friend tc ≠ []
  · refine ⟨({ F with channelStatus := Offst.Funder.ChannelStatus.consistent { tc with direction := Offst.Funder.TcDirection.outgoing { moveTokenOut := Offst.Funder.queuedOps opLen friend tc, tokenWanted := false } } }, [Offst.Funder.FunderOutgoingComm.friendMessage pk (Offst.Funder.FriendMessage.moveTokenRequest { operations := Offst.Funder.queuedOps opLen friend tc, token_wanted := false })], true), ?_, ?_, ?_, ?_⟩
    · simp only [Offst.Funder.send_through_token_channel, h,
        Offst.Funder.consistentChannel, hd, hq2, Option.bind_eq_bind, Option.some_bind,
        Offst.Funder.OperationsBatch.done, hBop]
      rw [if_pos hcond]
      simp only [Offst.Funder.send_friend_move_token, hFc, h,
        Offst.Funder.consistentChannel, hd, Option.bind_eq_bind, Option.some_bind,
        Offst.Funder.TcOutgoing.create_outgoing_move_token_request]
      rfl
    · simp [hcond]
    · intro _
      rfl
    · intro hfalse
      simp at hfalse
  · refine ⟨(F, [], false), ?_, ?_, ?_, ?_⟩
    · simp only [Offst.Funder.send_through_token_channel, h,
        Offst.Funder.consistentChannel, hd, hq2, Option.bind_eq_bind, Option.some_bind,
        Offst.Funder.OperationsBatch.done, hBop]
      rw [if_neg hcond]
      rfl
    · simp [hcond]
    · intro htrue
      simp at htrue
    · intro _
      rfl

/-- Claim C6, witness: the theorem applied to the concrete friend `fW`
(consistent incoming channel) in `EmptyAllowed` mode. -/
theorem c6_send_through_token_channel_condition_witness :
    ∃ r, Offst.Funder.send_through_token_channel Offst.Funder.lenW 1 Offst.Funder.fW
        Offst.Funder.SendMode.EmptyAllowed = some r ∧
      (r.2.2 = true ↔
        (Offst.Funder.SendMode.EmptyAllowed = Offst.Funder.SendMode.EmptyAllowed ∨
          Offst.Funder.queuedOps Offst.Funder.lenW Offst.Funder.fW Offst.Funder.tcW ≠ [])) ∧
      (r.2.2 = true →
        r.2.1 = [Offst.Funder.FunderOutgoingComm.friendMessage 1
          (Offst.Funder.FriendMessage.moveTokenRequest
            { operations := Offst.Funder.queuedOps Offst.Funder.lenW Offst.Funder.fW
                Offst.Funder.tcW
              token_wanted := false })]) ∧
      (r.2.2 = false → r.2.1 = []) :=
  c6_send_through_token_channel_condition Offst.Funder.lenW 1 Offst.Funder.fW
    Offst.Funder.tcW Offst.Funder.SendMode.EmptyAllowed rfl rfl

/-- Claim C7: the claim says that on a consistent incoming channel
`try_send_channel` runs the batcher (`send_through_token_channel`) to
compose and send a move token.  In the source `try_send_channel` is a
plain `fn` that calls the `async fn` `send_through_token_channel` without
`await!`, so the returned future is dropped unpolled.  On the friend `fW`
— consistent incoming channel, a wanted remote max debt change, one
pending response, one pending request and one pending user request —
`try_send_channel` leaves the friend unchanged and emits nothing, while
the dropped `send_through_token_channel` call would have scheduled a move
token (returning `true`) carrying a non-empty outgoing message. -/
theorem c7_incoming_branch_drops_future :
    Offst.Funder.try_send_channel Offst.Funder.lenW 1 Offst.Funder.fW
        Offst.Funder.SendMode.EmptyAllowed = some (Offst.Funder.fW, []) ∧
      (Offst.Funder.send_through_token_channel Offst.Funder.lenW 1 Offst.Funder.fW
            Offst.Funder.SendMode.EmptyAllowed).map
          (fun r => (r.2.2, decide (r.2.1 ≠ []))) = some (true, true) := by
  constructor
  · rfl
  · decide

/-- Claim C8: after any sequence of `add` calls on a batch created with
budget `MAX_MOVE_TOKEN_LENGTH`, the sum of the operation sizes of the
accepted operations never exceeds `MAX_MOVE_TOKEN_LENGTH`; and an `add`
whose operation exceeds the remaining budget returns `none` leaving both
the budget and the operation list unchanged. -/
theorem c8_operations_batch_budget (opLen : Offst.Funder.FriendTcOp → Nat)
    (ops : List Offst.Funder.FriendTcOp) (b : Offst.Funder.OperationsBatch)
    (op : Offst.Funder.FriendTcOp) (hrefuse : b.bytes_left < opLen op) :
    ((Offst.Funder.applyAdds opLen
          (Offst.Funder.OperationsBatch.new Offst.Funder.MAX_MOVE_TOKEN_LENGTH)
          ops).operations.map opLen).sum ≤ Offst.Funder.MAX_MOVE_TOKEN_LENGTH ∧
      Offst.Funder.OperationsBatch.add opLen b op = (b, none) := by
  constructor
  · have hinv := Offst.Funder.applyAdds_size_invariant opLen ops
      (Offst.Funder.OperationsBatch.new Offst.Funder.MAX_MOVE_TOKEN_LENGTH)
    have hno : (Offst.Funder.OperationsBatch.new
        Offst.Funder.MAX_MOVE_TOKEN_LENGTH).operations = [] := rfl
    have hnb : (Offst.Funder.OperationsBatch.new
        Offst.Funder.MAX_MOVE_TOKEN_LENGTH).bytes_left =
        Offst.Funder.MAX_MOVE_TOKEN_LENGTH := rfl
    rw [hno, hnb] at hinv
    simp only [List.map_nil, List.sum_nil] at hinv
    omega
  · have hn : ¬ opLen op ≤ b.bytes_left := not_le.mpr hrefuse
    simp [Offst.Funder.OperationsBatch.add, hn]

/-- Claim C8, witness: three-byte operations against a batch with two bytes
left; the `add` refuses and leaves the batch unchanged. -/
theorem c8_operations_batch_budget_witness :
    ((Offst.Funder.applyAdds Offst.Funder.lenW
          (Offst.Funder.OperationsBatch.new Offst.Funder.MAX_MOVE_TOKEN_LENGTH)
          [Offst.Funder.FriendTcOp.enableRequests]).operations.map
        Offst.Funder.lenW).sum ≤ Offst.Funder.MAX_MOVE_TOKEN_LENGTH ∧
      Offst.Funder.OperationsBatch.add Offst.Funder.lenW
          { bytes_left := 2, operations := [] } Offst.Funder.FriendTcOp.enableRequests =
        ({ bytes_left := 2, operations := [] }, none) :=
  c8_operations_batch_budget Offst.Funder.lenW [Offst.Funder.FriendTcOp.enableRequests]
    { bytes_left := 2, operations := [] } Offst.Funder.FriendTcOp.enableRequests
    (by decide)

/-- Claim C9: `create_response_signature_buffer` produces exactly the
concatenation hash("FUND_RESPONSE") || hash(request_id || rand_nonce) ||
src_hashed_lock || dest_hashed_lock || serialised is_complete ||
dest_payment (16 bytes big-endian) || total_dest_payment (16 bytes
big-endian) || invoice_id || serialised currency; consequently the buffer
is canonical: any two inputs agreeing on these signed fields yield
byte-equal buffers. -/
theorem c9_response_signature_buffer_canonical (sha : List Nat → List Nat)
    (serBool : Bool → List Nat) (serCurrency : List Nat → List Nat)
    (currency : List Nat) (resp : Offst.SigBuff.UnsignedResponseSendFundsOp)
    (pt : Offst.SigBuff.PendingTransaction) :
    Offst.SigBuff.create_response_signature_buffer sha serBool serCurrency
        currency resp pt =
      sha Offst.SigBuff.FUNDS_RESPONSE_TAG ++
        sha (pt.request_id ++ resp.rand_nonce) ++ pt.src_hashed_lock ++
        resp.dest_hashed_lock ++ serBool resp.is_complete ++
        Offst.SigBuff.beBytes 16 pt.dest_payment ++
        Offst.SigBuff.beBytes 16 pt.total_dest_payment ++ pt.invoice_id ++
        serCurrency currency ∧
      (∀ (currency2 : List Nat) (resp2 : Offst.SigBuff.UnsignedResponseSendFundsOp)
          (pt2 : Offst.SigBuff.PendingTransaction),
        pt2.request_id = pt.request_id → resp2.rand_nonce = resp.rand_nonce →
        pt2.src_hashed_lock = pt.src_hashed_lock →
        resp2.dest_hashed_lock = resp.dest_hashed_lock →
        resp2.is_complete = resp.is_complete →
        pt2.dest_payment = pt.dest_payment →
        pt2.total_dest_payment = pt.total_dest_payment →
        pt2.invoice_id = pt.invoice_id → currency2 = currency →
        Offst.SigBuff.create_response_signature_buffer sha serBool serCurrency
            currency2 resp2 pt2 =
          Offst.SigBuff.create_response_signature_buffer sha serBool serCurrency
            currency resp pt) := by
  constructor
  · simp [Offst.SigBuff.create_response_signature_buffer, List.append_assoc]
  · intro currency2 resp2 pt2 h1 h2 h3 h4 h5 h6 h7 h8 h9
    simp only [Offst.SigBuff.create_response_signature_buffer, h1, h2, h3, h4, h5,
      h6, h7, h8, h9]

/-- Claim C9, witness: the theorem applied at a concrete hash, concrete
serialisations and two pending transactions differing only in the unsigned
route field. -/
theorem c9_response_signature_buffer_canonical_witness :
    Offst.SigBuff.create_response_signature_buffer (fun l => 7 :: l)
        (fun b => [if b then 1 else 0]) (fun c => 99 :: c) [3]
        { rand_nonce := [2], dest_hashed_lock := [4], is_complete := true }
        { request_id := [1], route := [8, 9], src_hashed_lock := [5]
          dest_payment := 6, total_dest_payment := 10, invoice_id := [11] } =
      Offst.SigBuff.create_response_signature_buffer (fun l => 7 :: l)
        (fun b => [if b then 1 else 0]) (fun c => 99 :: c) [3]
        { rand_nonce := [2], dest_hashed_lock := [4], is_complete := true }
        { request_id := [1], route := [], src_hashed_lock := [5]
          dest_payment := 6, total_dest_payment := 10, invoice_id := [11] } :=
  (c9_response_signature_buffer_canonical (fun l => 7 :: l)
    (fun b => [if b then 1 else 0]) (fun c => 99 :: c) [3]
    { rand_nonce := [2], dest_hashed_lock := [4], is_complete := true }
    { request_id := [1], route := [], src_hashed_lock := [5]
      dest_payment := 6, total_dest_payment := 10, invoice_id := [11] }).2
    [3]
    { rand_nonce := [2], dest_hashed_lock := [4], is_complete := true }
    { request_id := [1], route := [8, 9], src_hashed_lock := [5]
      dest_payment := 6, total_dest_payment := 10, invoice_id := [11] }
    rfl rfl rfl rfl rfl rfl rfl rfl rfl
